import Mathlib

/-!
Verification of the Human Meter v5 analysis engine (client/src/pages/Home.tsx).

The engine is a pipeline of heuristic text analyzers written in JavaScript:
a constraint evaluator, a four-agent classifier, a "synthetic physics"
analyzer, a shadow translator, a temporal projector, a Monte-Carlo
consequence simulator, and two history-aware components (drift tracker and
pattern recognizer), orchestrated by `HumanMeterV5.analyze`.

Modelling conventions used throughout this file:
* JS numbers are modelled as real numbers (`ℝ`); quantities that are always
  produced and consumed as exact decimal values (record ids, JSON numbers)
  are modelled as rationals (`ℚ`).
* `Math.round` is `jsRound x = ⌊x + 1/2⌋` (this is what `Math.round` does on
  every real argument).
* `String.prototype.split(/\s+/)` is `splitWS`, which reproduces the exact
  JS behaviour: `"" ↦ [""]`, a maximal whitespace run is one separator, and
  a leading/trailing separator yields a leading/trailing empty field.
* Regular expressions appearing in the source are simple alternations of
  literal words (plus `\d`, `.*` and `\b` in a few places); each is modelled
  by a dedicated scanning function over the character list, matching the
  alternatives in the order they appear in the source pattern.
* `Date.now()`, `new Date().toISOString()` and `Math.random()` are
  nondeterministic inputs; they are passed to the model as explicit
  parameters (a clock value, a timestamp string, and a stream `ℕ → ℝ` of
  random draws).
* Values imported through `importAnalysis` are arbitrary JSON values; the
  history therefore holds either a structured analysis record or a raw JSON
  value.  Dynamic field accesses performed by the drift tracker and pattern
  recognizer on history entries are modelled by `Option`-valued accessors;
  `none` models a thrown `TypeError` (accessing a property of
  `undefined`/`null`, or calling `forEach` on a non-array).  Arithmetic on an
  `undefined` field (which JS would silently turn into `NaN`) is conflated
  with the failure case; no claim below depends on that corner.
-/

/-! ## Basic character-list utilities (JS string primitives) -/

/-- JSON whitespace (used by the `JSON.parse` model below). -/
def isWS (c : Char) : Bool :=
  c == ' ' || c == '\t' || c == '\n' || c == '\r'

/-- The ASCII part of the regex class `\s`, used by the model of
`split(/\s+/)` (the Unicode space characters `\s` also covers are not
modelled). -/
def isRegexWS (c : Char) : Bool :=
  c == ' ' || c == '\t' || c == '\n' || c == '\r'
    || c == Char.ofNat 11 || c == Char.ofNat 12

/-- Lowercased character list of a string: model of `s.toLowerCase()`. -/
def lowerData (s : String) : List Char :=
  s.data.map Char.toLower

/-- Model of `str.split(/\s+/)`: fields separated by maximal whitespace
runs, keeping the empty leading/trailing fields JS produces.  In
particular `splitWS "".data = [[]]` and `splitWS " ".data = [[], []]`. -/
def splitWS : List Char → List (List Char)
  | [] => [[]]
  | [c] => if isRegexWS c then [[], []] else [[c]]
  | c :: d :: rest =>
    let r := splitWS (d :: rest)
    if isRegexWS c then
      if isRegexWS d then r else [] :: r
    else
      match r with
      | [] => [[c]]
      | t :: ts => (c :: t) :: ts

/-- Does pattern `p` (already lowercase) match at the head of `cs`,
comparing case-insensitively? -/
def matchHead : List Char → List Char → Bool
  | [], _ => true
  | _ :: _, [] => false
  | p :: ps, c :: cs => (Char.toLower c == p) && matchHead ps cs

/-- One step of global alternation counting, fuel-driven.  At each position
the alternatives are tried in source order; on a match the scan resumes
after the matched text, exactly like a `/(w1|w2|…)/gi` global count. -/
def cmGo : ℕ → List (List Char) → List Char → ℕ
  | 0, _, _ => 0
  | _ + 1, _, [] => 0
  | f + 1, pats, c :: cs =>
    match pats.find? (fun p => matchHead p (c :: cs)) with
    | some p => 1 + cmGo f pats (List.drop (p.length - 1) cs)
    | none => cmGo f pats cs

/-- Model of `(str.match(/(w1|w2|…)/gi) || []).length`. -/
def countMatches (pats : List (List Char)) (cs : List Char) : ℕ :=
  cmGo (cs.length + 1) pats cs

/-- Remainder of `cs` after the first (case-insensitive) occurrence of
`pat`, or `none` when `pat` does not occur. -/
def afterMatch (pat : List Char) : List Char → Option (List Char)
  | [] => none
  | c :: cs =>
    if matchHead pat (c :: cs) then some (List.drop (pat.length - 1) cs)
    else afterMatch pat cs

/-- Model of `/pat/.test(str)` for a single literal word. -/
def containsSub (pat : List Char) (cs : List Char) : Bool :=
  (afterMatch pat cs).isSome

/-- Model of `/a.*b/.test(str)`: an occurrence of `a` followed, anywhere
later, by an occurrence of `b`. -/
def containsSeq (a b : List Char) (cs : List Char) : Bool :=
  match afterMatch a cs with
  | none => false
  | some rest => containsSub b rest

/-- Model of `/a.*b.*c/.test(str)`. -/
def containsSeq3 (a b c : List Char) (cs : List Char) : Bool :=
  match afterMatch a cs with
  | none => false
  | some rest => containsSeq b c rest

/-- Model of `Math.round`: JS rounds half toward positive infinity. -/
noncomputable def jsRound (x : ℝ) : ℤ :=
  ⌊x + 1 / 2⌋

/-- Model of `Math.max(0, Math.min(100, x))`. -/
noncomputable def clamp100 (x : ℝ) : ℝ :=
  max 0 (min 100 x)

/-! ## Synthetic physics engine (`SyntheticPhysicsEngine.analyze`) -/

/-- A `{value, normalized}` pair as produced by the physics engine. -/
structure Metric where
  value : ℝ
  normalized : ℝ

/-- Output of `SyntheticPhysicsEngine.analyze`. -/
structure Physics where
  coherence : Metric
  entropy : Metric
  impedance : Metric
  resilience : Metric
  soundness : ℤ

/-- The absolutist markers of `/(always|never|every|all|none)/gi`. -/
def absolutePats : List (List Char) :=
  [['a','l','w','a','y','s'], ['n','e','v','e','r'], ['e','v','e','r','y'],
   ['a','l','l'], ['n','o','n','e']]

/-- The obligation markers of `/(must|need|should)/gi` (called `emotional`
in the source). -/
def emotionalPats : List (List Char) :=
  [['m','u','s','t'], ['n','e','e','d'], ['s','h','o','u','l','d']]

/-- The hedge markers of `/(maybe|perhaps|could)/gi` (called `qualifiers`
in the source). -/
def qualifierPats : List (List Char) :=
  [['m','a','y','b','e'], ['p','e','r','h','a','p','s'], ['c','o','u','l','d']]

/-- The word-frequency table `wordFreq`: each distinct token (in first
occurrence order, as JS object keys) with its occurrence count. -/
def freqs (tokens : List (List Char)) : List (List Char × ℕ) :=
  tokens.dedup.map (fun t => (t, tokens.count t))

/-- The entropy accumulator: `-Σ p·log2(p)` over the frequency table, with
the `p > 0` guard of the source. -/
noncomputable def entropyOf (tokens : List (List Char)) : ℝ :=
  -((freqs tokens).map (fun tf =>
      let p : ℝ := (tf.2 : ℝ) / (tokens.length : ℝ)
      if p > 0 then p * Real.logb 2 p else 0)).sum

/-- The token list `words` of the physics engine:
`stmt.toLowerCase().split(/\s+/)`. -/
def tokensOf (stmt : String) : List (List Char) :=
  splitWS (lowerData stmt)

/-- `absolutes` counter of the physics engine. -/
def absolutesOf (stmt : String) : ℕ :=
  countMatches absolutePats stmt.data

/-- `emotional` counter of the physics engine. -/
def emotionalOf (stmt : String) : ℕ :=
  countMatches emotionalPats stmt.data

/-- `qualifiers` counter of the physics engine. -/
def qualifiersOf (stmt : String) : ℕ :=
  countMatches qualifierPats stmt.data

/-- `coherence = unique.size / Math.max(words.length, 1)`. -/
noncomputable def coherenceOf (stmt : String) : ℝ :=
  ((tokensOf stmt).dedup.length : ℝ) / max ((tokensOf stmt).length : ℝ) 1

/-- The raw `entropy` value of the physics engine. -/
noncomputable def entropyValOf (stmt : String) : ℝ :=
  entropyOf (tokensOf stmt)

/-- `entropy / Math.max(Math.log2(words.length), 1)`. -/
noncomputable def entropyNormOf (stmt : String) : ℝ :=
  entropyValOf stmt / max (Real.logb 2 (((tokensOf stmt).length : ℕ) : ℝ)) 1

/-- `impedance = (absolutes·10 + emotional·5 − qualifiers·3)
/ Math.max(stmt.length, 1) · 100`. -/
noncomputable def impedanceOf (stmt : String) : ℝ :=
  ((absolutesOf stmt : ℝ) * 10 + (emotionalOf stmt : ℝ) * 5
      - (qualifiersOf stmt : ℝ) * 3)
    / max (stmt.data.length : ℝ) 1 * 100

/-- `resilience = 1 − (absolutes + emotional) / Math.max(words.length, 1)`. -/
noncomputable def resilienceOf (stmt : String) : ℝ :=
  1 - ((absolutesOf stmt : ℝ) + (emotionalOf stmt : ℝ))
    / max ((tokensOf stmt).length : ℝ) 1

/-- `soundness = Math.round((coherence + (1 − min(1, entropyNorm))
+ max(0, resilience) + (1 − min(1, impedance/50))) / 4 · 100)`.
Note the last summand clamps `impedance/50` only from above. -/
noncomputable def soundnessOf (stmt : String) : ℤ :=
  jsRound ((coherenceOf stmt + (1 - min 1 (entropyNormOf stmt))
    + max 0 (resilienceOf stmt) + (1 - min 1 (impedanceOf stmt / 50))) / 4 * 100)

/-- Model of `SyntheticPhysicsEngine.analyze` (Home.tsx lines 83–109). -/
noncomputable def physicsAnalyze (stmt : String) : Physics :=
  { coherence := ⟨coherenceOf stmt, coherenceOf stmt⟩
    entropy := ⟨entropyValOf stmt, entropyNormOf stmt⟩
    impedance := ⟨impedanceOf stmt, min 1 (max 0 (impedanceOf stmt / 50))⟩
    resilience := ⟨resilienceOf stmt, max 0 (min 1 (resilienceOf stmt))⟩
    soundness := soundnessOf stmt }

/-! ### Facts about the tokenizer on whitespace-only input -/

theorem splitWS_ws_only {cs : List Char} (hne : cs ≠ [])
    (h : ∀ c ∈ cs, isRegexWS c = true) : splitWS cs = [[], []] := by
  induction cs with
  | nil => exact absurd rfl hne
  | cons c rest ih =>
    cases rest with
    | nil =>
      simp [splitWS, h c (by simp)]
    | cons d rest' =>
      have hd : isRegexWS d = true := h d (by simp)
      have hrest : splitWS (d :: rest') = [[], []] :=
        ih (by simp) (fun x hx => h x (List.mem_cons_of_mem _ hx))
      simp [splitWS, h c (by simp), hd, hrest]

theorem matchHead_ws_head {p : List Char} {c : Char} {cs : List Char}
    (hcw : isRegexWS c = true)
    (hp : ∃ h t, p = h :: t ∧ isRegexWS h = false ∧ Char.toLower h = h) :
    matchHead p (c :: cs) = false := by
  obtain ⟨hch, t, rfl, hhw, _⟩ := hp
  have hc6 : c = ' ' ∨ c = '\t' ∨ c = '\n' ∨ c = '\r'
      ∨ c = Char.ofNat 11 ∨ c = Char.ofNat 12 := by
    simp only [isRegexWS, Bool.or_eq_true, beq_iff_eq] at hcw
    tauto
  have hlow : Char.toLower c = c := by
    rcases hc6 with rfl | rfl | rfl | rfl | rfl | rfl <;> decide
  have hne : Char.toLower c ≠ hch := by
    rw [hlow]
    rintro rfl
    rw [hcw] at hhw
    exact Bool.noConfusion hhw
  simp only [matchHead, beq_eq_false_iff_ne.mpr hne, Bool.false_and]

/-- Every marker pattern used by the physics engine starts with a
non-whitespace lowercase character. -/
theorem physPats_head_ok :
    ∀ p ∈ absolutePats ++ emotionalPats ++ qualifierPats,
      ∃ h t, p = h :: t ∧ isRegexWS h = false ∧ Char.toLower h = h := by
  intro p hp
  fin_cases hp <;> exact ⟨_, _, rfl, by decide, by decide⟩

theorem cmGo_ws_zero {pats : List (List Char)} {cs : List Char} {f : ℕ}
    (hpats : ∀ p ∈ pats, ∃ h t, p = h :: t ∧ isRegexWS h = false ∧ Char.toLower h = h)
    (h : ∀ c ∈ cs, isRegexWS c = true) : cmGo f pats cs = 0 := by
  induction f generalizing cs with
  | zero => rfl
  | succ f ih =>
    cases cs with
    | nil => rfl
    | cons c rest =>
      have hfind : pats.find? (fun p => matchHead p (c :: rest)) = none := by
        rw [List.find?_eq_none]
        intro p hp
        simp only [Bool.not_eq_true]
        exact matchHead_ws_head (h c (by simp)) (hpats p hp)
      simp only [cmGo, hfind]
      exact ih (fun x hx => h x (List.mem_cons_of_mem _ hx))

theorem countMatches_ws_zero {pats : List (List Char)} {cs : List Char}
    (hpats : ∀ p ∈ pats, ∃ h t, p = h :: t ∧ isRegexWS h = false ∧ Char.toLower h = h)
    (h : ∀ c ∈ cs, isRegexWS c = true) : countMatches pats cs = 0 :=
  cmGo_ws_zero hpats h

/-! ### Component-level evaluation lemmas -/

theorem char_toLower_ws {c : Char} (h : isRegexWS c = true) : Char.toLower c = c := by
  have hc6 : c = ' ' ∨ c = '\t' ∨ c = '\n' ∨ c = '\r'
      ∨ c = Char.ofNat 11 ∨ c = Char.ofNat 12 := by
    simp only [isRegexWS, Bool.or_eq_true, beq_iff_eq] at h
    tauto
  rcases hc6 with rfl | rfl | rfl | rfl | rfl | rfl <;> decide

theorem lowerData_ws {s : String} (h : ∀ c ∈ s.data, isRegexWS c = true) :
    ∀ c ∈ lowerData s, isRegexWS c = true := by
  intro c hc
  simp only [lowerData, List.mem_map] at hc
  obtain ⟨x, hx, rfl⟩ := hc
  rw [char_toLower_ws (h x hx)]
  exact h x hx

theorem tokensOf_empty (s : String) (h : s.data = []) : tokensOf s = [[]] := by
  simp [tokensOf, lowerData, h, splitWS]

theorem tokensOf_ws {s : String} (hne : s.data ≠ [])
    (h : ∀ c ∈ s.data, isRegexWS c = true) : tokensOf s = [[], []] := by
  apply splitWS_ws_only
  · intro hmap
    exact hne (by simpa [lowerData] using hmap)
  · exact lowerData_ws h

theorem entropyOf_singleton (t : List Char) : entropyOf [t] = 0 := by
  have hfr : freqs [t] = [(t, 1)] := by
    simp [freqs]
  rw [entropyOf, hfr]
  norm_num [Real.logb_one]

theorem entropyOf_two_empty : entropyOf [([] : List Char), []] = 0 := by
  have hfr : freqs [([] : List Char), []] = [([], 2)] := by decide
  rw [entropyOf, hfr]
  norm_num [Real.logb_one]

theorem absolutesOf_ws {s : String} (h : ∀ c ∈ s.data, isRegexWS c = true) :
    absolutesOf s = 0 :=
  countMatches_ws_zero
    (fun p hp => physPats_head_ok p
      (List.mem_append_left _ (List.mem_append_left _ hp))) h

theorem emotionalOf_ws {s : String} (h : ∀ c ∈ s.data, isRegexWS c = true) :
    emotionalOf s = 0 :=
  countMatches_ws_zero
    (fun p hp => physPats_head_ok p
      (List.mem_append_left _ (List.mem_append_right _ hp))) h

theorem qualifiersOf_ws {s : String} (h : ∀ c ∈ s.data, isRegexWS c = true) :
    qualifiersOf s = 0 :=
  countMatches_ws_zero
    (fun p hp => physPats_head_ok p (List.mem_append_right _ hp)) h

/-- C1 (amended): on empty or whitespace-only input the physics analyzer
raises no exception (it is a total function) and returns entropy raw 0,
impedance raw 0 and resilience raw 1; its coherence raw value however is 1
for the empty string and 1/2 for a nonempty whitespace-only string, because
`"".split(/\s+/)` is `[""]` and a whitespace-only split is `["", ""]`, never
an empty token list. -/
theorem physics_ws_degenerate (s : String) (h : ∀ c ∈ s.data, isRegexWS c = true) :
    (physicsAnalyze s).entropy.value = 0 ∧
    (physicsAnalyze s).impedance.value = 0 ∧
    (physicsAnalyze s).resilience.value = 1 ∧
    (physicsAnalyze s).coherence.value = (if s.data = [] then 1 else 1 / 2) := by
  have habs := absolutesOf_ws h
  have hemo := emotionalOf_ws h
  have hqua := qualifiersOf_ws h
  by_cases hd : s.data = []
  · have ht : tokensOf s = [[]] := tokensOf_empty s hd
    refine ⟨?_, ?_, ?_, ?_⟩
    · show entropyValOf s = 0
      rw [entropyValOf, ht]
      exact entropyOf_singleton _
    · show impedanceOf s = 0
      rw [impedanceOf, habs, hemo, hqua, hd]
      norm_num
    · show resilienceOf s = 1
      rw [resilienceOf, habs, hemo]
      norm_num
    · show coherenceOf s = _
      rw [if_pos hd, coherenceOf, ht]
      norm_num
  · have ht : tokensOf s = [[], []] := tokensOf_ws hd h
    refine ⟨?_, ?_, ?_, ?_⟩
    · show entropyValOf s = 0
      rw [entropyValOf, ht]
      exact entropyOf_two_empty
    · show impedanceOf s = 0
      rw [impedanceOf, habs, hemo, hqua]
      norm_num
    · show resilienceOf s = 1
      rw [resilienceOf, habs, hemo]
      norm_num
    · show coherenceOf s = _
      rw [if_neg hd, coherenceOf, ht]
      have hded : (([([] : List Char), []]).dedup) = [[]] := by decide
      rw [hded]
      norm_num

/-- C1 witness: the amended statement evaluated at the whitespace-only
input `" "`. -/
theorem physics_ws_degenerate_witness :
    (physicsAnalyze " ").entropy.value = 0 ∧
    (physicsAnalyze " ").impedance.value = 0 ∧
    (physicsAnalyze " ").resilience.value = 1 ∧
    (physicsAnalyze " ").coherence.value
      = (if (" " : String).data = [] then 1 else 1 / 2) :=
  physics_ws_degenerate " " (by decide)

/-- C1 counterexample: on the empty input the coherence raw value is 1,
not 0 as the claim states (`"".split(/\s+/)` yields one empty token, so
`unique.size / max(words.length, 1) = 1/1`). -/
theorem physics_empty_coherence_ne_zero :
    (physicsAnalyze "").coherence.value ≠ 0 := by
  have hd : ("" : String).data = [] := rfl
  have ht : tokensOf "" = [[]] := tokensOf_empty _ hd
  show coherenceOf "" ≠ 0
  rw [coherenceOf, ht]
  norm_num

/-- C2 (amended): for every input, soundness is an integer equal to
`round(100 · mean(coherence, 1 − min(1, entropy.normalized),
max(0, resilience.raw), 1 − min(1, impedance.raw/50)))` — the impedance
term is clamped only from above, not to `[0,1]` — and soundness is
nonnegative, but it is not bounded by 100 (see the counterexample). -/
theorem soundness_formula (s : String) :
    0 ≤ (physicsAnalyze s).soundness ∧
    (physicsAnalyze s).soundness =
      jsRound (((physicsAnalyze s).coherence.value
        + (1 - min 1 (physicsAnalyze s).entropy.normalized)
        + max 0 (physicsAnalyze s).resilience.value
        + (1 - min 1 ((physicsAnalyze s).impedance.value / 50))) / 4 * 100) := by
  refine ⟨?_, rfl⟩
  show 0 ≤ soundnessOf s
  rw [soundnessOf, jsRound]
  apply Int.le_floor.mpr
  push_cast
  have hc : 0 ≤ coherenceOf s := by
    rw [coherenceOf]
    exact div_nonneg (Nat.cast_nonneg _)
      (le_trans zero_le_one (le_max_right _ _))
  have h2 : min 1 (entropyNormOf s) ≤ 1 := min_le_left _ _
  have h3 : (0 : ℝ) ≤ max 0 (resilienceOf s) := le_max_left _ _
  have h4 : min 1 (impedanceOf s / 50) ≤ 1 := min_le_left _ _
  have hsum : (0 : ℝ) ≤ coherenceOf s + (1 - min 1 (entropyNormOf s))
      + max 0 (resilienceOf s) + (1 - min 1 (impedanceOf s / 50)) := by
    linarith
  have hterm := mul_nonneg (div_nonneg hsum (by norm_num : (0:ℝ) ≤ 4))
    (by norm_num : (0:ℝ) ≤ 100)
  linarith

/-- C2 counterexample: on the input `"maybe"` the computed soundness is
130, which exceeds 100 and differs from the value of the claimed formula
(because the negative impedance term is not clamped from below). -/
theorem soundness_maybe_counterexample :
    (physicsAnalyze "maybe").soundness = 130 ∧
    ¬ ((physicsAnalyze "maybe").soundness ≤ 100) ∧
    (physicsAnalyze "maybe").soundness ≠
      jsRound (((physicsAnalyze "maybe").coherence.value
        + (1 - min 1 (physicsAnalyze "maybe").entropy.normalized)
        + max 0 (physicsAnalyze "maybe").resilience.value
        + (1 - (physicsAnalyze "maybe").impedance.normalized)) / 4 * 100) := by
  have ht : tokensOf "maybe" = [['m','a','y','b','e']] := by decide
  have habs : absolutesOf "maybe" = 0 := by decide
  have hemo : emotionalOf "maybe" = 0 := by decide
  have hqua : qualifiersOf "maybe" = 1 := by decide
  have hlen : (("maybe" : String).data.length : ℝ) = 5 := by norm_num [show ("maybe" : String).data = ['m','a','y','b','e'] from rfl]
  have hcoh : coherenceOf "maybe" = 1 := by
    rw [coherenceOf, ht]
    norm_num
  have hent : entropyValOf "maybe" = 0 := by
    rw [entropyValOf, ht]
    exact entropyOf_singleton _
  have hentN : entropyNormOf "maybe" = 0 := by
    rw [entropyNormOf, entropyValOf, ht, entropyOf_singleton]
    exact zero_div _
  have himp : impedanceOf "maybe" = -60 := by
    rw [impedanceOf, habs, hemo, hqua, hlen]
    rw [show max (5 : ℝ) 1 = 5 from max_eq_left (by norm_num)]
    norm_num
  have hres : resilienceOf "maybe" = 1 := by
    rw [resilienceOf, habs, hemo, ht]
    norm_num
  have hsound : soundnessOf "maybe" = 130 := by
    rw [soundnessOf, hcoh, hentN, himp, hres]
    rw [show min (1:ℝ) 0 = 0 from min_eq_right (by norm_num)]
    rw [show max (0:ℝ) 1 = 1 from max_eq_right (by norm_num)]
    rw [show min (1:ℝ) (-60 / 50) = -60 / 50 from min_eq_right (by norm_num)]
    rw [jsRound]
    rw [Int.floor_eq_iff]
    constructor <;> norm_num
  refine ⟨hsound, ?_, ?_⟩
  · show ¬ soundnessOf "maybe" ≤ 100
    rw [hsound]
    norm_num
  show soundnessOf "maybe" ≠ _
  rw [hsound]
  have hnorm : (physicsAnalyze "maybe").impedance.normalized = 0 := by
    show min 1 (max 0 (impedanceOf "maybe" / 50)) = 0
    rw [himp]
    rw [show max (0:ℝ) (-60 / 50) = 0 from max_eq_left (by norm_num)]
    exact min_eq_right (by norm_num)
  rw [hnorm]
  have hc2 : (physicsAnalyze "maybe").coherence.value = 1 := hcoh
  have he2 : (physicsAnalyze "maybe").entropy.normalized = 0 := hentN
  have hr2 : (physicsAnalyze "maybe").resilience.value = 1 := hres
  rw [hc2, he2, hr2]
  rw [show min (1:ℝ) 0 = 0 from min_eq_right (by norm_num)]
  rw [show max (0:ℝ) 1 = 1 from max_eq_right (by norm_num)]
  rw [show ((1:ℝ) + (1 - 0) + 1 + (1 - 0)) / 4 * 100 = 100 from by norm_num]
  rw [show jsRound 100 = 100 from by rw [jsRound, Int.floor_eq_iff]; norm_num]
  decide

/-! ## Multi-agent classifier (`MultiAgentClassifier.classify`) -/

/-- One agent's verdict: `{name, type, confidence}`. -/
structure Agent where
  name : String
  type : String
  confidence : ℝ

/-- Output of `MultiAgentClassifier.classify`. -/
structure Classification where
  type : String
  confidence : ℝ
  agentResults : List Agent
  consensusStrength : ℝ
  dissentingOpinions : List Agent

/-- `/\d+|measure|observe/.test(s)` on the lowercased text. -/
def literalistTest (cs : List Char) : Bool :=
  cs.any Char.isDigit
    || containsSub ['m','e','a','s','u','r','e'] cs
    || containsSub ['o','b','s','e','r','v','e'] cs

/-- `/like|as|represent|symbol/.test(s)` on the lowercased text. -/
def contextualistTest (cs : List Char) : Bool :=
  containsSub ['l','i','k','e'] cs
    || containsSub ['a','s'] cs
    || containsSub ['r','e','p','r','e','s','e','n','t'] cs
    || containsSub ['s','y','m','b','o','l'] cs

/-- `/always|never|everyone|must/.test(s)` on the lowercased text. -/
def skepticTest (cs : List Char) : Bool :=
  containsSub ['a','l','w','a','y','s'] cs
    || containsSub ['n','e','v','e','r'] cs
    || containsSub ['e','v','e','r','y','o','n','e'] cs
    || containsSub ['m','u','s','t'] cs

/-- `/if|could|imagine|might/.test(s)` on the lowercased text. -/
def visionaryTest (cs : List Char) : Bool :=
  containsSub ['i','f'] cs
    || containsSub ['c','o','u','l','d'] cs
    || containsSub ['i','m','a','g','i','n','e'] cs
    || containsSub ['m','i','g','h','t'] cs

/-- `detectType`: target category at base confidence when the pattern
matched, else `UNCLEAR` at confidence 0.5. -/
noncomputable def detectType (matched : Bool) (t : String) (conf : ℝ) :
    String × ℝ :=
  if matched then (t, conf) else ("UNCLEAR", 0.5)

/-- Stable insertion of one `(category, count)` entry into a list sorted by
descending count: the entry goes before the first strictly smaller count,
after all equal counts — the order a stable descending sort produces. -/
def insertDesc (x : String × ℕ) : List (String × ℕ) → List (String × ℕ)
  | [] => [x]
  | y :: ys => if y.2 ≤ x.2 then x :: y :: ys else y :: insertDesc x ys

/-- Model of `Object.entries(counts).sort((a,b) => b[1] - a[1])`: a stable
sort by descending count (`Array.prototype.sort` is stable). -/
def sortCountsDesc (l : List (String × ℕ)) : List (String × ℕ) :=
  l.foldr insertDesc []

/-- The classifier body as a function of the four pattern-test outcomes. -/
noncomputable def classifyCore (b1 b2 b3 b4 : Bool) : Classification :=
  let d1 := detectType b1 "FACT" 0.85
  let d2 := detectType b2 "SYMBOL" 0.75
  let d3 := detectType b3 "LIE" 0.9
  let d4 := detectType b4 "IMAGINATION" 0.8
  let agents : List Agent :=
    [⟨"Literalist", d1.1, d1.2⟩, ⟨"Contextualist", d2.1, d2.2⟩,
     ⟨"Skeptic", d3.1, d3.2⟩, ⟨"Visionary", d4.1, d4.2⟩]
  let types := agents.map Agent.type
  let counts := types.dedup.map (fun t => (t, types.count t))
  let consensus := (sortCountsDesc counts).headD ("", 0)
  { type := consensus.1
    confidence :=
      ((agents.filter (fun a => a.type == consensus.1)).map
        Agent.confidence).sum / (consensus.2 : ℝ)
    agentResults := agents
    consensusStrength := (consensus.2 : ℝ) / (agents.length : ℝ)
    dissentingOpinions := agents.filter (fun a => a.type != consensus.1) }

/-- Model of `MultiAgentClassifier.classify` (Home.tsx lines 53–72). -/
noncomputable def classify (stmt : String) : Classification :=
  classifyCore (literalistTest (lowerData stmt))
    (contextualistTest (lowerData stmt))
    (skepticTest (lowerData stmt))
    (visionaryTest (lowerData stmt))

/-- The specification's description of the majority: the category of the
first verdict, in agent order, whose category achieves the maximum count. -/
def specMajority (types : List String) : String :=
  let m := (types.map (fun t => types.count t)).foldr max 0
  (types.find? (fun t => types.count t == m)).getD ""

/-- C9: the classifier's majority category is the most frequent category
among the four agent verdicts, ties broken stably: the winner is the
category of the first agent, in the fixed order Literalist, Contextualist,
Skeptic, Visionary, whose category achieves the maximum count. -/
theorem classify_majority_stable (s : String) :
    (classify s).type = specMajority ((classify s).agentResults.map Agent.type) := by
  show (classifyCore _ _ _ _).type
    = specMajority ((classifyCore _ _ _ _).agentResults.map Agent.type)
  generalize literalistTest (lowerData s) = b1
  generalize contextualistTest (lowerData s) = b2
  generalize skepticTest (lowerData s) = b3
  generalize visionaryTest (lowerData s) = b4
  cases b1 <;> cases b2 <;> cases b3 <;> cases b4 <;> rfl

/-! ## Statement context and its JS-style defaulting -/

/-- `StatementContext`: the optional per-call fields; `none` models an
absent (`undefined`) field. -/
structure StatementContext where
  domain : Option String
  actualLoad : Option ℚ
  trustLayers : Option ℚ
  verificationLevel : Option ℚ

/-- The all-absent context `{}`. -/
def emptyContext : StatementContext :=
  ⟨none, none, none, none⟩

/-- Model of `x || d` for a string-valued JS field (`undefined` and `""`
are falsy). -/
def jsOrStr (o : Option String) (d : String) : String :=
  match o with
  | none => d
  | some s => if s = "" then d else s

/-- Model of `x || d` for a number-valued JS field (`undefined` and `0`
are falsy). -/
def jsOrNum (o : Option ℚ) (d : ℚ) : ℚ :=
  match o with
  | none => d
  | some x => if x = 0 then d else x

/-! ## Constraint system (`QuantumConstraintSystem`) -/

/-- A constraint violation record (the source field `axiom` is
`axiomText` here, `axiom` being reserved). -/
structure Violation where
  constraint : String
  axiomText : String
  severity : String
  repair : String

/-- Output of `QuantumConstraintSystem.testAll`. -/
structure ConstraintResult where
  violations : List Violation
  overallConfidence : ℝ

/-- One axiom entry: id, human-readable principle, severity, and the
predicate applied to the lowercased statement and the context. -/
structure AxiomRule where
  id : String
  text : String
  severity : String
  test : List Char → StatementContext → Bool

/-- The five universal axioms, in declaration (JS object key) order. -/
def universalRules : List AxiomRule :=
  [ ⟨"TIME-001", "Cause precedes effect", "CRITICAL", fun cs _ =>
      containsSeq ['e','f','f','e','c','t'] ['c','a','u','s','e'] cs
        || containsSeq ['c','o','n','s','e','q','u','e','n','c','e']
             ['b','e','f','o','r','e'] cs⟩,
    ⟨"PHYS-001", "Energy cannot be created from nothing", "CRITICAL", fun cs _ =>
      containsSeq3 ['c','r','e','a','t','e'] ['e','n','e','r','g','y']
          ['n','o','t','h','i','n','g'] cs
        || containsSeq ['p','e','r','p','e','t','u','a','l']
             ['m','o','t','i','o','n'] cs⟩,
    ⟨"PHYS-002", "Weight requires support", "HIGH", fun _ ctx =>
      decide (jsOrNum ctx.actualLoad 1 > 10)⟩,
    ⟨"SOC-001", "Trust decays with distance", "MODERATE", fun _ ctx =>
      decide (jsOrNum ctx.trustLayers 1 > 5)⟩,
    ⟨"SOC-002", "Agreement cannot be forced", "HIGH", fun cs _ =>
      containsSeq ['f','o','r','c','e'] ['a','g','r','e','e'] cs
        || containsSeq ['m','a','k','e'] ['b','e','l','i','e','v','e'] cs
        || containsSeq ['e','n','s','u','r','e']
             ['a','l','i','g','n','m','e','n','t'] cs⟩ ]

/-- The domain-specific axiom sets (`medical`, `legal`, `engineering`);
any other domain has none. -/
def domainRulesFor (d : String) : List AxiomRule :=
  if d = "medical" then
    [ ⟨"MED-001", "First, do no harm", "CRITICAL", fun cs _ =>
        containsSeq ['g','u','a','r','a','n','t','e','e'] ['c','u','r','e'] cs
          || containsSeq ['m','i','r','a','c','l','e']
               ['t','r','e','a','t','m','e','n','t'] cs⟩,
      ⟨"MED-002", "Informed consent required", "HIGH", fun cs _ =>
        containsSub (['d','o','n', Char.ofNat 39, 't',' ','n','e','e','d',' ',
            't','o',' ','k','n','o','w']) cs
          || containsSub ['t','r','u','s','t',' ','m','e'] cs
          || containsSub ['j','u','s','t',' ','d','o',' ','i','t'] cs⟩ ]
  else if d = "legal" then
    [ ⟨"LAW-001", "Innocent until proven guilty", "CRITICAL", fun cs _ =>
        containsSub ['g','u','i','l','t','y',' ','u','n','t','i','l'] cs
          || containsSub ['p','r','o','v','e',' ',
               'i','n','n','o','c','e','n','c','e'] cs⟩,
      ⟨"LAW-002", "Evidence must be admissible", "HIGH", fun cs _ =>
        containsSub ['h','e','a','r','s','a','y',' ','i','s',' ',
            'p','r','o','o','f'] cs
          || containsSub ['r','u','m','o','r',' ',
               'c','o','n','f','i','r','m','s'] cs⟩ ]
  else if d = "engineering" then
    [ ⟨"ENG-001", "Safety factor required", "CRITICAL", fun cs _ =>
        containsSub ['n','o',' ','m','a','r','g','i','n',' ',
            'n','e','e','d','e','d'] cs
          || containsSub ['e','x','a','c','t','l','y',' ','a','t',' ',
               'l','i','m','i','t'] cs⟩,
      ⟨"ENG-002", "Test before deployment", "HIGH", fun cs _ =>
        containsSub ['d','e','p','l','o','y',' ',
            'u','n','t','e','s','t','e','d'] cs
          || containsSub ['s','k','i','p',' ',
               'v','a','l','i','d','a','t','i','o','n'] cs⟩ ]
  else []

/-- Model of `QuantumConstraintSystem.testAll` (Home.tsx lines 33–46):
the active set is the universal axioms, merged with the domain set for a
non-universal domain; every axiom whose predicate holds yields a
violation; confidence is 1 with no violations, else `e^(−0.3·count)`. -/
noncomputable def testAll (stmt : String) (ctx : StatementContext) :
    ConstraintResult :=
  let domain := jsOrStr ctx.domain "universal"
  let rules := if domain = "universal" then universalRules
    else universalRules ++ domainRulesFor domain
  let violations := (rules.filter (fun r => r.test (lowerData stmt) ctx)).map
    (fun r => Violation.mk r.id r.text r.severity
      ("Reformulate to respect: " ++ r.text))
  { violations := violations
    overallConfidence := if violations.length = 0 then 1
      else Real.exp (-(violations.length : ℝ) * 0.3) }

/-! ## Shadow translator (`ShadowTranslator`) -/

/-- A shadow-dictionary pattern: either a plain case-insensitive literal, or
a `\b…\b`-delimited alternation (alternatives tried in order, as the regex
backtracker does). -/
inductive ShadowPat where
  | plain (pat : List Char)
  | bounded (alts : List (List Char))

/-- JS `\w`: ASCII letters, digits and underscore. -/
def isWordChar (c : Char) : Bool :=
  c.isAlphanum || c == '_'

/-- Is there a word boundary after `n` consumed characters of `cs`
(i.e. is the next character absent or a non-word character)? -/
def boundaryAfter (n : ℕ) (cs : List Char) : Bool :=
  match (List.drop n cs).head? with
  | some c => !(isWordChar c)
  | none => true

/-- Length of the match of `p` at the head of `cs`, given whether the
previous original character was a word character. -/
def shadowMatchAt (p : ShadowPat) (prevWord : Bool) (cs : List Char) :
    Option ℕ :=
  match p with
  | .plain pat => if matchHead pat cs then some pat.length else none
  | .bounded alts =>
    if prevWord then none
    else (alts.find? (fun a => matchHead a cs && boundaryAfter a.length cs)).map
      List.length

/-- Fuel-driven global replace with counting: scans left to right over the
original text, and on each match emits the replacement and resumes after
the matched span (the JS `String.replace` global semantics). -/
def replGo (repl : List Char) (p : ShadowPat) :
    ℕ → Bool → List Char → List Char × ℕ
  | 0, _, cs => (cs, 0)
  | _ + 1, _, [] => ([], 0)
  | f + 1, prevWord, c :: cs =>
    match shadowMatchAt p prevWord (c :: cs) with
    | some n =>
      let matched := List.take n (c :: cs)
      let r := replGo repl p f
        (match matched.getLast? with
         | some x => isWordChar x
         | none => prevWord)
        (List.drop n (c :: cs))
      (repl ++ r.1, 1 + r.2)
    | none =>
      let r := replGo repl p f (isWordChar c) cs
      (c :: r.1, r.2)

/-- Model of one `shadow = shadow.replace(e.regex, …)` step with its
`detections` count. -/
def replaceCount (p : ShadowPat) (repl : List Char) (cs : List Char) :
    List Char × ℕ :=
  replGo repl p (cs.length + 1) false cs

/-- Output of `ShadowTranslator.translate`. -/
structure ShadowResult where
  original : String
  shadow : String
  detections : ℕ
  riskLevel : String

/-- The shadow dictionary, in source order; replacements are emitted in
brackets (`[${e.shadow}]`). -/
def shadowDict : List (ShadowPat × String) :=
  [ (.plain ['e','n','s','u','r','e',' ','s','a','f','e','t','y'],
       "[ENFORCE CONTROL]"),
    (.plain ['g','r','e','a','t','e','r',' ','g','o','o','d'],
       "[JUSTIFY AUTHORITY]"),
    (.plain ['p','r','o','t','e','c','t',' ',
        'c','o','m','m','u','n','i','t','y'], "[POLICE BOUNDARIES]"),
    (.bounded [['a','l','i','g','n','m','e','n','t'],
        ['a','l','i','g','n']], "[SUBMIT/SUBMISSION]"),
    (.plain ['c','o','n','s','e','n','s','u','s'], "[SUPPRESS DISSENT]"),
    (.plain ['w','e',' ','n','e','e','d',' ','t','o'], "[I WANT TO]"),
    (.bounded [['m','u','s','t']], "[WILL FORCE]") ]

/-- Model of `ShadowTranslator.translate` (Home.tsx lines 156–170): the
seven substitutions applied in order, each over the text already rewritten
by the previous ones, accumulating the detection count. -/
def shadowTranslate (text : String) : ShadowResult :=
  let step := shadowDict.foldl
    (fun (acc : List Char × ℕ) e =>
      let r := replaceCount e.1 e.2.data acc.1
      (r.1, acc.2 + r.2)) (text.data, 0)
  { original := text
    shadow := ⟨step.1⟩
    detections := step.2
    riskLevel := if step.2 > 2 then "HIGH"
      else if step.2 > 0 then "MODERATE" else "LOW" }

/-! ## Temporal projection (`TemporalProjectionEngine.project`) -/

/-- One projected horizon entry. -/
structure Projection where
  horizon : String
  timeRange : String
  probability : ℤ
  confidence : ℝ

/-- The fixed horizons: name, hours, base confidence, rendered range. -/
def horizonData : List (String × ℚ × ℝ × String) :=
  [("immediate", 1, 0.9, "1h"), ("short", 24, 0.7, "24h"),
   ("medium", 168, 0.5, "168h")]

/-- Model of `TemporalProjectionEngine.project` (Home.tsx lines 116–137),
as a function of the classification, the physics metrics and the (clamped)
structural integrity. -/
noncomputable def temporalProject (classification : Classification)
    (physics : Physics) (integrity : ℝ) : List Projection :=
  let decay := physics.entropy.normalized * 2 + (1 - physics.resilience.normalized)
  horizonData.map (fun h =>
    let prob0 := Real.exp (-decay * (h.2.1 : ℝ) / 24) * (integrity / 100)
    let prob1 := if classification.type = "FACT" then prob0 * 1.1 else prob0
    let prob2 := if classification.type = "LIE" then prob1 * 0.3 else prob1
    { horizon := h.1
      timeRange := h.2.2.2
      probability := jsRound (min 99 (max 1 (prob2 * 100)))
      confidence := h.2.2.1 })

/-! ## Consequence simulator (`ConsequenceSimulator.simulate`) -/

/-- One aggregated simulation outcome. -/
structure Outcome where
  outcome : String
  probability : ℤ
  count : ℕ

/-- Bucketing of one perturbed integrity value. -/
noncomputable def outcomeFor (x : ℝ) : String :=
  if x < 30 then "CATASTROPHIC_FAILURE"
  else if x < 50 then "PARTIAL_FAILURE"
  else if x < 70 then "DEGRADED_SUCCESS"
  else "SUCCESS"

/-- Stable insertion for the outcome sort by descending probability. -/
def insertOutcomeDesc (x : Outcome) : List Outcome → List Outcome
  | [] => [x]
  | y :: ys => if y.probability ≤ x.probability then x :: y :: ys
    else y :: insertOutcomeDesc x ys

/-- Model of `.sort((a, b) => b.probability - a.probability)` (stable). -/
def sortOutcomesDesc (l : List Outcome) : List Outcome :=
  l.foldr insertOutcomeDesc []

/-- Model of `ConsequenceSimulator.simulate` (Home.tsx lines 238–261): each
trial adds uniform noise `(rand − 0.5)·20` to the integrity, buckets it,
counts are tallied in first-occurrence order and converted to rounded
percentages, sorted by descending probability.  The caller passes 100 for
the `iterations` default. -/
noncomputable def simulate (integrity : ℝ) (rand : ℕ → ℝ) (iterations : ℕ) :
    List Outcome :=
  let outcomes := (List.range iterations).map
    (fun i => outcomeFor (integrity + (rand i - 0.5) * 20))
  let counts := outcomes.dedup.map (fun o => (o, outcomes.count o))
  sortOutcomesDesc (counts.map (fun oc =>
    Outcome.mk oc.1 (jsRound ((oc.2 : ℝ) / (iterations : ℝ) * 100)) oc.2))

/-! ## Drift tracker, pattern recognizer and history entries -/

/-- A JSON value, as produced by `JSON.parse`.  Numbers are modelled as
rationals (decimal literals). -/
inductive Json where
  | null
  | bool (b : Bool)
  | num (q : ℚ)
  | str (s : String)
  | arr (elems : List Json)
  | obj (fields : List (String × Json))

/-- Fuel-driven structural equality on JSON values (used only to model the
JS `Set`/`===` distinctness checks; fuel `sizeOf a + 1` always suffices). -/
def jsonBeqF : ℕ → Json → Json → Bool
  | 0, _, _ => false
  | _ + 1, .null, .null => true
  | _ + 1, .bool x, .bool y => x == y
  | _ + 1, .num x, .num y => x == y
  | _ + 1, .str x, .str y => x == y
  | f + 1, .arr xs, .arr ys =>
    xs.length == ys.length
      && (List.zip xs ys).all (fun p => jsonBeqF f p.1 p.2)
  | f + 1, .obj xs, .obj ys =>
    xs.length == ys.length
      && (List.zip xs ys).all
        (fun p => p.1.1 == p.2.1 && jsonBeqF f p.1.2 p.2.2)
  | _ + 1, _, _ => false

/-- JSON value equality with self-sizing fuel. -/
noncomputable def jsonBeq (a b : Json) : Bool :=
  jsonBeqF (sizeOf a + 1) a b

/-- Equality of possibly-`undefined` JS values (`undefined === undefined`
is true). -/
noncomputable def optJsonBeq (a b : Option Json) : Bool :=
  match a, b with
  | none, none => true
  | some x, some y => jsonBeq x y
  | _, _ => false

/-- Are all values pairwise distinct (the `new Set(xs).size === xs.length`
check)? -/
noncomputable def allDistinct : List (Option Json) → Bool
  | [] => true
  | x :: xs => !(xs.any (optJsonBeq x)) && allDistinct xs

/-- The string a JS value coerces to when used as an object key.  Exact for
the values the engine itself produces (strings); approximate renderings for
other value kinds, none of which any claim depends on. -/
def keyStr : Option Json → String
  | none => "undefined"
  | some .null => "null"
  | some (.bool true) => "true"
  | some (.bool false) => "false"
  | some (.str s) => s
  | some (.num q) => toString q.num ++ (if q.den = 1 then "" else "/" ++ toString q.den)
  | some (.arr _) => "[array]"
  | some (.obj _) => "[object Object]"

/-- Property access `j.k` on a JS value: `none` models a thrown
`TypeError` (access on `null`); `some none` is `undefined`. -/
def getMember (j : Json) (k : String) : Option (Option Json) :=
  match j with
  | .null => none
  | .obj fields => some ((fields.find? (fun f => f.1 == k)).map (fun f => f.2))
  | _ => some none

/-! ### The analysis record and history entries -/

/-- The `structural` sub-object: clamped integrity and its status label. -/
structure StructuralScore where
  integrity : ℝ
  status : String

/-- Output of `DriftTracker.calculate` when history has ≥ 2 records. -/
structure DriftInfo where
  avgIntegrity : ℝ
  trend : String
  trendValue : ℝ
  warning : Option String

/-- One recognized pattern; `frequency` is present only for
`RECURRING_VIOLATION`. -/
structure Pattern where
  type : String
  detail : String
  frequency : Option ℕ
  severity : String

/-- One repair protocol entry; `severity` is present only for
violation-derived repairs. -/
structure Repair where
  priority : ℕ
  action : String
  instruction : String
  severity : Option String

/-- The aggregate analysis record assembled by `HumanMeterV5.analyze`. -/
structure AnalysisRecord where
  id : ℚ
  timestamp : String
  input : String
  context : StatementContext
  classification : Classification
  constraints : ConstraintResult
  physics : Physics
  shadow : ShadowResult
  structural : StructuralScore
  temporal : List Projection
  status : String
  repairProtocols : List Repair
  consequences : List Outcome
  drift : Option DriftInfo
  patterns : List Pattern

/-- A history entry: either a record built by `analyze`, or a raw JSON
value appended verbatim by `importAnalysis`. -/
inductive Entry where
  | record (r : AnalysisRecord)
  | imported (j : Json)

/-- `a.structural.integrity` of a history entry; `none` models a throw (or
`NaN`-producing access, see the header note). -/
noncomputable def entryIntegrity : Entry → Option ℝ
  | .record r => some r.structural.integrity
  | .imported j =>
    match getMember j "structural" with
    | none => none
    | some none => none
    | some (some st) =>
      match getMember st "integrity" with
      | none => none
      | some (some (.num q)) => some (q : ℝ)
      | some _ => none

/-- The list of `v.constraint` values of `a.constraints.violations`;
`none` models a throw (`violations` missing or not an array, or a `null`
element). -/
def entryViolationKeys : Entry → Option (List (Option Json))
  | .record r => some (r.constraints.violations.map
      (fun v => some (Json.str v.constraint)))
  | .imported j =>
    match getMember j "constraints" with
    | none => none
    | some none => none
    | some (some c) =>
      match getMember c "violations" with
      | none => none
      | some (some (.arr vs)) =>
        vs.foldr (fun v acc =>
          match getMember v "constraint", acc with
          | some k, some ks => some (k :: ks)
          | _, _ => none) (some [])
      | some _ => none

/-- The `a.classification.type` value of a history entry (which may itself
be `undefined`); `none` models a throw. -/
def entryType : Entry → Option (Option Json)
  | .record r => some (some (.str r.classification.type))
  | .imported j =>
    match getMember j "classification" with
    | none => none
    | some none => none
    | some (some c) => getMember c "type"

/-- Sequencing of the per-entry integrity accesses, failing at the first
throwing entry. -/
noncomputable def traverseIntegs : List Entry → Option (List ℝ)
  | [] => some []
  | e :: es =>
    match entryIntegrity e, traverseIntegs es with
    | some x, some xs => some (x :: xs)
    | _, _ => none

/-- Sequencing of the per-entry violation-key accesses. -/
def traverseViolKeys : List Entry → Option (List (List (Option Json)))
  | [] => some []
  | e :: es =>
    match entryViolationKeys e, traverseViolKeys es with
    | some x, some xs => some (x :: xs)
    | _, _ => none

/-- Sequencing of the per-entry classification-type accesses. -/
def traverseTypes : List Entry → Option (List (Option Json))
  | [] => some []
  | e :: es =>
    match entryType e, traverseTypes es with
    | some x, some xs => some (x :: xs)
    | _, _ => none

/-- Model of `DriftTracker.calculate(history, 5)` (Home.tsx lines
176–191).  Outer `none` = a thrown access; inner `none` = the `null`
returned for a short history. -/
noncomputable def driftCalc (history : List Entry) (window : ℕ) :
    Option (Option DriftInfo) :=
  if history.length < 2 then some none
  else
    let recent := history.drop (history.length - min window history.length)
    match traverseIntegs recent with
    | none => none
    | some integs =>
      let avg := integs.sum / (recent.length : ℝ)
      match integs.getLast?, integs.head? with
      | some lastI, some firstI =>
        let trend := lastI - firstI
        some (some
          { avgIntegrity := avg
            trend := if trend > 5 then "IMPROVING"
              else if trend < -5 then "DEGRADING" else "STABLE"
            trendValue := trend
            warning := if avg < 60 ∧ trend < 0 then some "CRITICAL_DECAY"
              else none })
      | _, _ => none

/-- Model of `PatternRecognizer.recognize` (Home.tsx lines 197–231);
`none` = a thrown access while scanning history. -/
noncomputable def recognize (history : List Entry) : Option (List Pattern) :=
  if history.length < 3 then some []
  else
    match traverseViolKeys history with
    | none => none
    | some keyLists =>
      let keys := (keyLists.flatten).map keyStr
      let tally := keys.dedup.map (fun k => (k, keys.count k))
      let recurring := (tally.filter (fun kc => 3 ≤ kc.2)).map
        (fun kc => Pattern.mk "RECURRING_VIOLATION" kc.1 (some kc.2) "HIGH")
      match traverseTypes history with
      | none => none
      | some types =>
        let driftPat := if allDistinct types && decide (5 ≤ types.length)
          then [Pattern.mk "CLASSIFICATION_DRIFT"
            "No consensus across analyses" none "MODERATE"] else []
        match traverseIntegs history with
        | none => none
        | some integs =>
          let decayPat := if integs.Chain' (fun a b => b < a)
              ∧ 3 ≤ integs.length
            then [Pattern.mk "PROGRESSIVE_DECAY"
              "Consistent integrity decline" none "CRITICAL"] else []
          some (recurring ++ driftPat ++ decayPat)

/-! ## Engine orchestration (`HumanMeterV5`) -/

/-- The status label computed from the fixed thresholds 80/60/40/20 (the
source computes it from the pre-clamp integrity value). -/
noncomputable def statusFor (integrity : ℝ) : String :=
  if 80 ≤ integrity then "OPTIMAL"
  else if 60 ≤ integrity then "STABLE"
  else if 40 ≤ integrity then "STRESSED"
  else if 20 ≤ integrity then "CRITICAL"
  else "FAILING"

/-- `/love|care|protect/i.test(input)`. -/
def loveTest (cs : List Char) : Bool :=
  containsSub ['l','o','v','e'] cs || containsSub ['c','a','r','e'] cs
    || containsSub ['p','r','o','t','e','c','t'] cs

/-- `/hate|threat|danger/i.test(input)`. -/
def hateTest (cs : List Char) : Bool :=
  containsSub ['h','a','t','e'] cs || containsSub ['t','h','r','e','a','t'] cs
    || containsSub ['d','a','n','g','e','r'] cs

/-- Model of `HumanMeterV5.determineStatus` (Home.tsx lines 323–329). -/
noncomputable def determineStatus (classification : Classification)
    (constraints : ConstraintResult) (structural : StructuralScore) : String :=
  if constraints.violations.any (fun v => v.severity == "CRITICAL") then "HALT"
  else if structural.integrity < 20 then "HALT"
  else if classification.consensusStrength < 0.5 then "HALT_RECLASSIFY"
  else if structural.integrity < 50 then "PROCEED_SANDBOX"
  else "PROCEED"

/-- Model of `HumanMeterV5.generateRepairs` (Home.tsx lines 331–345):
violation repairs with 1-based sequential priorities, then the
physics-derived repairs continuing the numbering. -/
noncomputable def generateRepairs (_classification : Classification)
    (constraints : ConstraintResult) (physics : Physics) : List Repair :=
  let base := constraints.violations.enum.map (fun iv =>
    Repair.mk (iv.1 + 1) iv.2.constraint iv.2.repair (some iv.2.severity))
  let n := constraints.violations.length
  let l1 := if physics.soundness < 70 ∧ physics.coherence.normalized < 0.5
    then [Repair.mk (n + 1) "COHERENCE" "Add logical connectives" none] else []
  let l2 := if physics.soundness < 70 ∧ physics.impedance.normalized > 0.6
    then [Repair.mk (n + l1.length + 1) "RIGIDITY" "Add qualifiers" none]
    else []
  base ++ l1 ++ l2

/-- The integrity product of `HumanMeterV5.analyze`: 100 multiplied by the
classifier confidence, the constraint confidence, `soundness/100`, and the
love/hate dampers, before clamping. -/
noncomputable def integrityOf (input : String) (ctx : StatementContext) : ℝ :=
  let i0 : ℝ := 100 * (classify input).confidence
    * (testAll input ctx).overallConfidence
    * (((physicsAnalyze input).soundness : ℝ) / 100)
  let i1 := if loveTest input.data then i0 * 1.05 else i0
  if hateTest input.data then i1 * 0.95 else i1

/-- The `structural` sub-object built by `analyze`: clamped integrity, and
the status derived from the pre-clamp value. -/
noncomputable def structuralOf (input : String) (ctx : StatementContext) :
    StructuralScore :=
  ⟨clamp100 (integrityOf input ctx), statusFor (integrityOf input ctx)⟩

/-- The record literal of `analyze` with a given value for its
`consequences` property (all other properties evaluate before it). -/
noncomputable def analyzeCoreWith (input : String) (ctx : StatementContext)
    (tMs : ℚ) (ts : String) (cons : List Outcome) : AnalysisRecord :=
  { id := tMs
    timestamp := ts
    input := input
    context := ctx
    classification := classify input
    constraints := testAll input ctx
    physics := physicsAnalyze input
    shadow := shadowTranslate input
    structural := structuralOf input ctx
    temporal := temporalProject (classify input) (physicsAnalyze input)
      (structuralOf input ctx).integrity
    status := determineStatus (classify input) (testAll input ctx)
      (structuralOf input ctx)
    repairProtocols := generateRepairs (classify input) (testAll input ctx)
      (physicsAnalyze input)
    consequences := cons
    drift := none
    patterns := [] }

/-- The record built inside `HumanMeterV5.analyze` before the `drift` and
`patterns` fields are assigned (they are written after the record is
pushed), under the INTENDED consumption of the consequence simulator — the
simulator fed the integrity score, as spec section 4.7 describes.  The call
as actually written passes the bare `structural` object and therefore
throws; see `simulateAsCalled`/`analyzeStepActual` below, which model the
code as written.  `tMs` is the observed `Date.now()` value, `ts` the
observed `toISOString()`, `rand` the `Math.random()` draw stream. -/
noncomputable def analyzeCore (input : String) (ctx : StatementContext)
    (tMs : ℚ) (ts : String) (rand : ℕ → ℝ) : AnalysisRecord :=
  analyzeCoreWith input ctx tMs ts
    (simulate (structuralOf input ctx).integrity rand 100)

/-- The in-place assignment `analysis.drift = …` of the source. -/
noncomputable def withDrift (r : AnalysisRecord) (d : Option DriftInfo) :
    AnalysisRecord :=
  { r with drift := d }

/-- The in-place assignment `analysis.patterns = …` of the source. -/
noncomputable def withPatterns (r : AnalysisRecord) (p : List Pattern) :
    AnalysisRecord :=
  { r with patterns := p }

/-- Model of one `HumanMeterV5.analyze` call against a given history
(Home.tsx lines 280–321), under the intended simulate consumption (see
`analyzeCore`): the record is pushed first, then `drift` and `patterns`
are computed over the grown history and written onto the pushed record.
The first component is `none` when a drift/pattern scan throws (the push
has already happened); otherwise it is the returned record.
`analyzeStepActual` below models the call as actually written. -/
noncomputable def analyzeStep (input : String) (ctx : StatementContext)
    (tMs : ℚ) (ts : String) (rand : ℕ → ℝ) (history : List Entry) :
    Option AnalysisRecord × List Entry :=
  let r0 := analyzeCore input ctx tMs ts rand
  match driftCalc (history ++ [Entry.record r0]) 5 with
  | none => (none, history ++ [Entry.record r0])
  | some d =>
    let r1 := withDrift r0 d
    match recognize (history ++ [Entry.record r1]) with
    | none => (none, history ++ [Entry.record r1])
    | some p =>
      let r2 := withPatterns r1 p
      (some r2, history ++ [Entry.record r2])

/-! ### Integrity bounds and status consistency (intended engine) -/

theorem clamp100_threshold (t x : ℝ) (h0 : 0 < t) (h100 : t ≤ 100) :
    t ≤ clamp100 x ↔ t ≤ x := by
  constructor
  · intro h
    by_contra hx
    push_neg at hx
    have : clamp100 x < t :=
      max_lt h0 (lt_of_le_of_lt (min_le_right _ _) hx)
    linarith
  · intro h
    exact le_max_of_le_right (le_min h100 h)

theorem statusFor_clamp100 (x : ℝ) : statusFor (clamp100 x) = statusFor x := by
  have h80 := clamp100_threshold 80 x (by norm_num) (by norm_num)
  have h60 := clamp100_threshold 60 x (by norm_num) (by norm_num)
  have h40 := clamp100_threshold 40 x (by norm_num) (by norm_num)
  have h20 := clamp100_threshold 20 x (by norm_num) (by norm_num)
  simp only [statusFor, h80, h60, h40, h20]

theorem clamp100_nonneg (x : ℝ) : 0 ≤ clamp100 x :=
  le_max_left _ _

theorem clamp100_le (x : ℝ) : clamp100 x ≤ 100 :=
  max_le (by norm_num) (min_le_left _ _)

/-- The structural sub-object of a record returned by `analyzeStep` is the
one built by `analyzeCore` (the later field writes do not touch it). -/
theorem analyzeStep_structural (input : String) (ctx : StatementContext)
    (tMs : ℚ) (ts : String) (rand : ℕ → ℝ) (history : List Entry)
    (r : AnalysisRecord) (h' : List Entry)
    (heq : analyzeStep input ctx tMs ts rand history = (some r, h')) :
    r.structural = (analyzeCore input ctx tMs ts rand).structural := by
  simp only [analyzeStep] at heq
  split at heq
  · simp at heq
  · split at heq
    · simp at heq
    · simp only [Prod.mk.injEq, Option.some.injEq] at heq
      rw [← heq.1]
      rfl

/-- Under the intended simulate consumption (`analyzeStep`), every record
returned by `analyze` has integrity in `[0,100]`, and
its `structural.status` agrees with the fixed thresholds (≥80 OPTIMAL,
≥60 STABLE, ≥40 STRESSED, ≥20 CRITICAL, else FAILING) applied to that
clamped integrity — the source computes the status from the pre-clamp
value, but the two agree on every input. -/
theorem integrity_in_range_status_consistent (input : String)
    (ctx : StatementContext) (tMs : ℚ) (ts : String) (rand : ℕ → ℝ)
    (history : List Entry) (r : AnalysisRecord) (h' : List Entry)
    (heq : analyzeStep input ctx tMs ts rand history = (some r, h')) :
    0 ≤ r.structural.integrity ∧ r.structural.integrity ≤ 100 ∧
      r.structural.status = statusFor r.structural.integrity := by
  rw [analyzeStep_structural input ctx tMs ts rand history r h' heq]
  refine ⟨clamp100_nonneg _, clamp100_le _, ?_⟩
  show statusFor _ = statusFor (clamp100 _)
  rw [statusFor_clamp100]

/-- The previous theorem instantiated at a concrete call on a fresh
engine. -/
theorem integrity_in_range_witness :
    ∃ r h', analyzeStep "" emptyContext 0 "t" (fun _ => 1 / 2) [] = (some r, h')
      ∧ (0 ≤ r.structural.integrity ∧ r.structural.integrity ≤ 100 ∧
         r.structural.status = statusFor r.structural.integrity) :=
  ⟨_, _, rfl,
    integrity_in_range_status_consistent "" emptyContext 0 "t" (fun _ => 1 / 2)
      [] _ _ rfl⟩

/-! ### C5: overallStatus priority rules -/

/-- The specification's rule table for `overallStatus`, in priority order:
condition and resulting status of each rule. -/
noncomputable def specStatusRules (classification : Classification)
    (constraints : ConstraintResult) (structural : StructuralScore) :
    List (Bool × String) :=
  [ (constraints.violations.any (fun v => v.severity == "CRITICAL"), "HALT"),
    (decide (structural.integrity < 20), "HALT"),
    (decide (classification.consensusStrength < 0.5), "HALT_RECLASSIFY"),
    (decide (structural.integrity < 50), "PROCEED_SANDBOX") ]

/-- First-matching-rule evaluation over a rule table. -/
def firstMatchRule (rules : List (Bool × String)) (dflt : String) : String :=
  match rules.find? (fun r => r.1) with
  | some r => r.2
  | none => dflt

/-- C5: `determineStatus` is decided by the first matching rule in the
exact priority order: any CRITICAL violation → HALT; integrity < 20 →
HALT; consensusStrength < 0.5 → HALT_RECLASSIFY; integrity < 50 →
PROCEED_SANDBOX; otherwise PROCEED. -/
theorem determineStatus_first_matching_rule (classification : Classification)
    (constraints : ConstraintResult) (structural : StructuralScore) :
    determineStatus classification constraints structural
      = firstMatchRule (specStatusRules classification constraints structural)
          "PROCEED" := by
  cases hcrit : constraints.violations.any (fun v => v.severity == "CRITICAL") <;>
    by_cases h20 : structural.integrity < 20 <;>
    by_cases hcs : classification.consensusStrength < 0.5 <;>
    by_cases h50 : structural.integrity < 50 <;>
    simp [determineStatus, firstMatchRule, specStatusRules, hcrit, h20, hcs, h50]

/-! ### Determinism up to the nondeterministic inputs (intended engine) -/

/-- Erasure of the fields that depend on the nondeterministic inputs: the
random `consequences`, and the clock-derived `id` and `timestamp`. -/
def stripVariable (r : AnalysisRecord) : AnalysisRecord :=
  { r with consequences := [], id := 0, timestamp := "" }

/-- Erasure of the `consequences` field only. -/
def stripConsequences (r : AnalysisRecord) : AnalysisRecord :=
  { r with consequences := [] }

/-- Under the intended simulate consumption, two `analyze` calls with
identical `(text, context)`,
each on a fresh engine, agree on every field of the returned record except
`consequenceOutcomes`, `id` and `timestamp`; the latter two depend only on
the observed clock, so they also agree whenever the two calls observe the
same clock value. -/
theorem analyze_deterministic_mod_consequences (input : String)
    (ctx : StatementContext) (t1 : ℚ) (ts1 : String) (rand1 : ℕ → ℝ)
    (t2 : ℚ) (ts2 : String) (rand2 : ℕ → ℝ) :
    (analyzeStep input ctx t1 ts1 rand1 []).1.map stripVariable
      = (analyzeStep input ctx t2 ts2 rand2 []).1.map stripVariable := rfl

/-- With only `consequenceOutcomes` erased, two intended-engine calls
observing different clock values differ (their `id` fields are the two
clock values), so the claim as stated is false. -/
theorem analyze_two_calls_ids_differ :
    (analyzeStep "" emptyContext 0 "t0" (fun _ => 1 / 2) []).1.map
        stripConsequences
      ≠ (analyzeStep "" emptyContext 1 "t1" (fun _ => 1 / 2) []).1.map
        stripConsequences := by
  intro h
  have h2 : (0 : ℚ) = 1 :=
    congrArg (fun o => Option.elim o 0 AnalysisRecord.id) h
  exact absurd h2 (by norm_num)

/-! ## JSON parsing (`JSON.parse`, used by `importAnalysis`) -/

/-- Left brace character, written by code to keep braces out of literals. -/
def lbrace : Char := Char.ofNat 123

/-- Right brace character. -/
def rbrace : Char := Char.ofNat 125

/-- Strip an exact (case-sensitive) literal from the head of the input. -/
def stripLit : List Char → List Char → Option (List Char)
  | [], cs => some cs
  | _ :: _, [] => none
  | l :: ls, c :: cs => if c == l then stripLit ls cs else none

/-- Skip JSON whitespace. -/
def jws (cs : List Char) : List Char :=
  cs.dropWhile isWS

/-- Numeric value of a digit run. -/
def digitsToNat (ds : List Char) : ℕ :=
  ds.foldl (fun a c => a * 10 + (c.toNat - 48)) 0

/-- Value of a hexadecimal digit. -/
def hexVal (c : Char) : Option ℕ :=
  if '0' ≤ c ∧ c ≤ '9' then some (c.toNat - 48)
  else if 'a' ≤ c ∧ c ≤ 'f' then some (c.toNat - 87)
  else if 'A' ≤ c ∧ c ≤ 'F' then some (c.toNat - 55)
  else none

/-- Fractional part after the decimal point. -/
def parseFrac (cs : List Char) : Option (ℚ × List Char) :=
  let p := cs.span Char.isDigit
  if p.1.isEmpty then none
  else some ((digitsToNat p.1 : ℚ) / ((10 : ℚ) ^ p.1.length), p.2)

/-- Exponent part after `e`/`E`. -/
def parseExp (cs : List Char) : Option (ℤ × List Char) :=
  match cs with
  | [] => none
  | c :: r =>
    let sr : ℤ × List Char :=
      if c == '+' then (1, r) else if c == '-' then (-1, r) else (1, c :: r)
    let p := sr.2.span Char.isDigit
    if p.1.isEmpty then none else some (sr.1 * (digitsToNat p.1 : ℤ), p.2)

/-- A JSON number: sign, integer digits, optional fraction, optional
exponent.  (Leading zeros are tolerated — a harmless superset of the JSON
grammar.) -/
def parseNumber (cs : List Char) : Option (ℚ × List Char) :=
  let sgn : Bool × List Char :=
    match cs with
    | c :: r => if c == '-' then (true, r) else (false, cs)
    | [] => (false, cs)
  let p := sgn.2.span Char.isDigit
  if p.1.isEmpty then none
  else
    let intPart : ℚ := (digitsToNat p.1 : ℚ)
    let frOpt : Option (Option (ℚ × List Char)) :=
      match p.2 with
      | c :: r => if c == '.' then some (parseFrac r) else none
      | [] => none
    match frOpt with
    | some none => none
    | some (some fq) =>
      let exOpt : Option (Option (ℤ × List Char)) :=
        match fq.2 with
        | c :: r => if c == 'e' || c == 'E' then some (parseExp r) else none
        | [] => none
      match exOpt with
      | some none => none
      | some (some eq2) =>
        let m : ℚ := intPart + fq.1
        some ((if sgn.1 then -m else m) * (10 : ℚ) ^ eq2.1, eq2.2)
      | none =>
        let m : ℚ := intPart + fq.1
        some (if sgn.1 then -m else m, fq.2)
    | none =>
      let exOpt : Option (Option (ℤ × List Char)) :=
        match p.2 with
        | c :: r => if c == 'e' || c == 'E' then some (parseExp r) else none
        | [] => none
      match exOpt with
      | some none => none
      | some (some eq2) =>
        some ((if sgn.1 then -intPart else intPart) * (10 : ℚ) ^ eq2.1, eq2.2)
      | none =>
        some (if sgn.1 then -intPart else intPart, p.2)

/-- JSON string body after the opening quote, with the standard escapes;
fuel-driven. -/
def parseStrChars : ℕ → List Char → Option (List Char × List Char)
  | 0, _ => none
  | _ + 1, [] => none
  | f + 1, c :: rest =>
    if c == '"' then some ([], rest)
    else if c == '\\' then
      match rest with
      | [] => none
      | e :: r2 =>
        let esc : Option Char :=
          if e == '"' then some '"'
          else if e == '\\' then some '\\'
          else if e == '/' then some '/'
          else if e == 'b' then some (Char.ofNat 8)
          else if e == 'f' then some (Char.ofNat 12)
          else if e == 'n' then some '\n'
          else if e == 'r' then some '\r'
          else if e == 't' then some '\t'
          else none
        match esc with
        | some ch => (parseStrChars f r2).map (fun p => (ch :: p.1, p.2))
        | none =>
          if e == 'u' then
            match r2 with
            | a :: b :: c3 :: d :: r3 =>
              match hexVal a, hexVal b, hexVal c3, hexVal d with
              | some x1, some x2, some x3, some x4 =>
                (parseStrChars f r3).map
                  (fun p => (Char.ofNat (((x1 * 16 + x2) * 16 + x3) * 16 + x4)
                    :: p.1, p.2))
              | _, _, _, _ => none
            | _ => none
          else none
    else (parseStrChars f rest).map (fun p => (c :: p.1, p.2))

/-- Parser working state: a value position, or the tail of an array/object
whose first tokens have been consumed. -/
inductive PIn where
  | val (cs : List Char)
  | arrTail (acc : List Json) (cs : List Char)
  | objTail (acc : List (String × Json)) (cs : List Char)

/-- The recursive-descent JSON parser, fuel-driven (the fuel bound used by
`jsonParse` always suffices).  Returns the parsed value and the unconsumed
input. -/
def parseGo : ℕ → PIn → Option (Json × List Char)
  | 0, _ => none
  | f + 1, .val cs0 =>
    let cs := jws cs0
    match stripLit ['n','u','l','l'] cs with
    | some r => some (.null, r)
    | none =>
    match stripLit ['t','r','u','e'] cs with
    | some r => some (.bool true, r)
    | none =>
    match stripLit ['f','a','l','s','e'] cs with
    | some r => some (.bool false, r)
    | none =>
    match cs with
    | [] => none
    | c :: rest =>
      if c == '"' then
        match parseStrChars (rest.length + 1) rest with
        | some p => some (.str ⟨p.1⟩, p.2)
        | none => none
      else if c == '[' then
        match jws rest with
        | c2 :: r2 =>
          if c2 == ']' then some (.arr [], r2)
          else parseGo f (.arrTail [] (c2 :: r2))
        | [] => none
      else if c == lbrace then
        match jws rest with
        | c2 :: r2 =>
          if c2 == rbrace then some (.obj [], r2)
          else parseGo f (.objTail [] (c2 :: r2))
        | [] => none
      else
        match parseNumber cs with
        | some p => some (.num p.1, p.2)
        | none => none
  | f + 1, .arrTail acc cs =>
    match parseGo f (.val cs) with
    | none => none
    | some (v, r) =>
      match jws r with
      | c :: r2 =>
        if c == ',' then parseGo f (.arrTail (acc ++ [v]) r2)
        else if c == ']' then some (.arr (acc ++ [v]), r2)
        else none
      | [] => none
  | f + 1, .objTail acc cs =>
    match jws cs with
    | c :: r =>
      if c == '"' then
        match parseStrChars (r.length + 1) r with
        | some kp =>
          match jws kp.2 with
          | c2 :: r2 =>
            if c2 == ':' then
              match parseGo f (.val r2) with
              | some vp =>
                match jws vp.2 with
                | c3 :: r3 =>
                  if c3 == ',' then
                    parseGo f (.objTail (acc ++ [(⟨kp.1⟩, vp.1)]) r3)
                  else if c3 == rbrace then
                    some (.obj (acc ++ [(⟨kp.1⟩, vp.1)]), r3)
                  else none
                | [] => none
              | none => none
            else none
          | [] => none
        | none => none
      else none
    | [] => none

/-- Model of `JSON.parse(s)`: parse one value and require only whitespace
after it; `none` models the thrown `SyntaxError`. -/
def jsonParse (s : String) : Option Json :=
  match parseGo (4 * (s.data.length + 1)) (.val s.data) with
  | some p => if jws p.2 = [] then some p.1 else none
  | none => none

/-- Model of `HumanMeterV5.importAnalysis` (Home.tsx lines 353–361): parse,
and on success push the parsed value verbatim; on a parse error return the
failure result with the history untouched. -/
def importAnalysis (history : List Entry) (s : String) :
    Option Json × List Entry :=
  match jsonParse s with
  | some j => (some j, history ++ [Entry.imported j])
  | none => (none, history)

/-- C10: `importAnalysis` succeeds on every string the JSON parser accepts —
whatever value it denotes, object or not, invariant-violating or not —
appending the parsed value to history verbatim with no shape or invariant
validation, and returns the failure result exactly when parsing fails (with
history unchanged). -/
theorem import_parses_no_validation (history : List Entry) (s : String) :
    (∀ j, jsonParse s = some j →
      importAnalysis history s = (some j, history ++ [Entry.imported j])) ∧
    (jsonParse s = none → importAnalysis history s = (none, history)) := by
  constructor
  · intro j hj
    simp [importAnalysis, hj]
  · intro hn
    simp [importAnalysis, hn]

/-- C10 witness: the non-object inputs `"null"` and `"42"`, a record with
integrity 200 (outside the documented invariant), and a non-JSON input. -/
theorem import_parses_no_validation_witness :
    importAnalysis [] "null" = (some Json.null, [Entry.imported Json.null]) ∧
    importAnalysis [] "42"
      = (some (Json.num 42), [Entry.imported (Json.num 42)]) ∧
    importAnalysis []
        "\x7b\"id\":1,\"structural\":\x7b\"integrity\":200\x7d\x7d"
      = (some (Json.obj [("id", Json.num 1),
          ("structural", Json.obj [("integrity", Json.num 200)])]),
         [Entry.imported (Json.obj [("id", Json.num 1),
          ("structural", Json.obj [("integrity", Json.num 200)])])]) ∧
    importAnalysis [] "not json" = (none, []) := by
  refine ⟨?_, ?_, ?_, ?_⟩
  · exact (import_parses_no_validation [] "null").1 Json.null rfl
  · exact (import_parses_no_validation [] "42").1 (Json.num 42) rfl
  · exact (import_parses_no_validation []
      "\x7b\"id\":1,\"structural\":\x7b\"integrity\":200\x7d\x7d").1 _ rfl
  · exact (import_parses_no_validation [] "not json").2 rfl

/-! ### Totality of the intended engine over the history it can reach -/

/-- Record-shape condition for the drift tracker's access: the entry has an
object `structural` member with a numeric `integrity`. -/
def wfIntegrityB : Entry → Bool
  | .record _ => true
  | .imported j =>
    match getMember j "structural" with
    | some (some st) =>
      match getMember st "integrity" with
      | some (some (.num _)) => true
      | _ => false
    | _ => false

/-- Record-shape condition for the pattern recognizer's violation scan: an
object `constraints` member whose `violations` is an array of non-`null`
values. -/
def wfViolationsB : Entry → Bool
  | .record _ => true
  | .imported j =>
    match getMember j "constraints" with
    | some (some c) =>
      match getMember c "violations" with
      | some (some (.arr vs)) =>
        vs.all (fun v => (getMember v "constraint").isSome)
      | _ => false
    | _ => false

/-- Record-shape condition for the classification scan: an object
`classification` member (so `.type` does not throw). -/
def wfClassB : Entry → Bool
  | .record _ => true
  | .imported j =>
    match getMember j "classification" with
    | some (some c) => (getMember c "type").isSome
    | _ => false

/-- A record-shaped history entry: all three dynamic scans are safe.  Every
entry produced by `analyze` itself satisfies this definitionally. -/
def wfEntry (e : Entry) : Bool :=
  wfIntegrityB e && wfViolationsB e && wfClassB e

theorem wfEntry_integ {e : Entry} (h : wfEntry e = true) :
    wfIntegrityB e = true := by
  simp only [wfEntry, Bool.and_eq_true] at h
  exact h.1.1

theorem wfEntry_viol {e : Entry} (h : wfEntry e = true) :
    wfViolationsB e = true := by
  simp only [wfEntry, Bool.and_eq_true] at h
  exact h.1.2

theorem wfEntry_class {e : Entry} (h : wfEntry e = true) :
    wfClassB e = true := by
  simp only [wfEntry, Bool.and_eq_true] at h
  exact h.2

theorem entryIntegrity_isSome {e : Entry} (h : wfIntegrityB e = true) :
    (entryIntegrity e).isSome = true := by
  cases e with
  | record r => rfl
  | imported j =>
    rcases hs : getMember j "structural" with _ | ost
    · simp [wfIntegrityB, hs] at h
    · rcases ost with _ | st
      · simp [wfIntegrityB, hs] at h
      · rcases hi : getMember st "integrity" with _ | oi
        · simp [wfIntegrityB, hs, hi] at h
        · rcases oi with _ | v
          · simp [wfIntegrityB, hs, hi] at h
          · cases v <;> simp_all [wfIntegrityB, entryIntegrity, hs, hi]

theorem viol_fold_isSome {vs : List Json}
    (h : ∀ v ∈ vs, (getMember v "constraint").isSome = true) :
    (vs.foldr (fun v acc =>
      match getMember v "constraint", acc with
      | some k, some ks => some (k :: ks)
      | _, _ => none) (some ([] : List (Option Json)))).isSome = true := by
  induction vs with
  | nil => rfl
  | cons v vs ih =>
    have hv := h v (by simp)
    have hrest := ih (fun x hx => h x (List.mem_cons_of_mem _ hx))
    obtain ⟨k, hk⟩ := Option.isSome_iff_exists.mp hv
    obtain ⟨ks, hks⟩ := Option.isSome_iff_exists.mp hrest
    simp only [List.foldr_cons, hk, hks]
    rfl

theorem entryViolationKeys_isSome {e : Entry} (h : wfViolationsB e = true) :
    (entryViolationKeys e).isSome = true := by
  cases e with
  | record r => rfl
  | imported j =>
    rcases hs : getMember j "constraints" with _ | oc
    · simp [wfViolationsB, hs] at h
    · rcases oc with _ | c
      · simp [wfViolationsB, hs] at h
      · rcases hv : getMember c "violations" with _ | ov
        · simp [wfViolationsB, hs, hv] at h
        · rcases ov with _ | v
          · simp [wfViolationsB, hs, hv] at h
          · cases v with
            | arr vs =>
              simp only [wfViolationsB, hs, hv, List.all_eq_true] at h
              simp only [entryViolationKeys, hs, hv]
              exact viol_fold_isSome h
            | null => simp [wfViolationsB, hs, hv] at h
            | bool b => simp [wfViolationsB, hs, hv] at h
            | num q => simp [wfViolationsB, hs, hv] at h
            | str s => simp [wfViolationsB, hs, hv] at h
            | obj fs => simp [wfViolationsB, hs, hv] at h

theorem entryType_isSome {e : Entry} (h : wfClassB e = true) :
    (entryType e).isSome = true := by
  cases e with
  | record r => rfl
  | imported j =>
    rcases hs : getMember j "classification" with _ | oc
    · simp [wfClassB, hs] at h
    · rcases oc with _ | c
      · simp [wfClassB, hs] at h
      · simp only [wfClassB, hs] at h
        simp only [entryType, hs]
        exact h

theorem traverseIntegs_isSome {l : List Entry}
    (h : ∀ e ∈ l, wfIntegrityB e = true) :
    (traverseIntegs l).isSome = true := by
  induction l with
  | nil => rfl
  | cons e es ih =>
    obtain ⟨x, hx⟩ := Option.isSome_iff_exists.mp
      (entryIntegrity_isSome (h e (by simp)))
    obtain ⟨xs, hxs⟩ := Option.isSome_iff_exists.mp
      (ih (fun y hy => h y (List.mem_cons_of_mem _ hy)))
    simp only [traverseIntegs, hx, hxs]
    rfl

theorem traverseViolKeys_isSome {l : List Entry}
    (h : ∀ e ∈ l, wfViolationsB e = true) :
    (traverseViolKeys l).isSome = true := by
  induction l with
  | nil => rfl
  | cons e es ih =>
    obtain ⟨x, hx⟩ := Option.isSome_iff_exists.mp
      (entryViolationKeys_isSome (h e (by simp)))
    obtain ⟨xs, hxs⟩ := Option.isSome_iff_exists.mp
      (ih (fun y hy => h y (List.mem_cons_of_mem _ hy)))
    simp only [traverseViolKeys, hx, hxs]
    rfl

theorem traverseTypes_isSome {l : List Entry}
    (h : ∀ e ∈ l, wfClassB e = true) :
    (traverseTypes l).isSome = true := by
  induction l with
  | nil => rfl
  | cons e es ih =>
    obtain ⟨x, hx⟩ := Option.isSome_iff_exists.mp
      (entryType_isSome (h e (by simp)))
    obtain ⟨xs, hxs⟩ := Option.isSome_iff_exists.mp
      (ih (fun y hy => h y (List.mem_cons_of_mem _ hy)))
    simp only [traverseTypes, hx, hxs]
    rfl

theorem traverseIntegs_length {l : List Entry} {xs : List ℝ}
    (h : traverseIntegs l = some xs) : xs.length = l.length := by
  induction l generalizing xs with
  | nil =>
    simp only [traverseIntegs, Option.some.injEq] at h
    rw [← h]
    rfl
  | cons e es ih =>
    simp only [traverseIntegs] at h
    rcases he : entryIntegrity e with _ | x <;> rw [he] at h
    · exact absurd h (by simp)
    · rcases hes : traverseIntegs es with _ | ys <;> rw [hes] at h
      · exact absurd h (by simp)
      · simp only [Option.some.injEq] at h
        rw [← h]
        simp [ih hes]

theorem driftCalc_isSome (w : ℕ) {h : List Entry} (hw : 1 ≤ w)
    (hwf : ∀ e ∈ h, wfIntegrityB e = true) :
    (driftCalc h w).isSome = true := by
  unfold driftCalc
  by_cases hlen : h.length < 2
  · simp [hlen]
  · rw [if_neg hlen]
    have hsub : ∀ e ∈ h.drop (h.length - min w h.length),
        wfIntegrityB e = true :=
      fun e he => hwf e (List.mem_of_mem_drop he)
    obtain ⟨integs, hint⟩ :=
      Option.isSome_iff_exists.mp (traverseIntegs_isSome hsub)
    simp only [hint]
    have hlenI := traverseIntegs_length hint
    have hpos : 0 < integs.length := by
      rw [hlenI, List.length_drop]
      push_neg at hlen
      have h1 : 1 ≤ min w h.length := le_min hw (le_trans (by norm_num) hlen)
      omega
    have hne : integs ≠ [] := by
      intro h0
      rw [h0] at hpos
      simp at hpos
    obtain ⟨lastI, hlast⟩ :=
      Option.isSome_iff_exists.mp (List.getLast?_isSome.mpr hne)
    rcases integs with _ | ⟨x, xs⟩
    · exact absurd rfl hne
    · rw [hlast]
      rfl

theorem recognize_isSome {h : List Entry}
    (hwf : ∀ e ∈ h, wfEntry e = true) : (recognize h).isSome = true := by
  unfold recognize
  by_cases hlen : h.length < 3
  · simp [hlen]
  · rw [if_neg hlen]
    obtain ⟨keyLists, hk⟩ := Option.isSome_iff_exists.mp
      (traverseViolKeys_isSome (fun e he => wfEntry_viol (hwf e he)))
    rw [hk]
    obtain ⟨types, ht⟩ := Option.isSome_iff_exists.mp
      (traverseTypes_isSome (fun e he => wfEntry_class (hwf e he)))
    rw [ht]
    obtain ⟨integs, hi⟩ := Option.isSome_iff_exists.mp
      (traverseIntegs_isSome (fun e he => wfEntry_integ (hwf e he)))
    rw [hi]
    rfl

/-- The intended engine is total — it returns an `AnalysisRecord` and
aborts nothing — for every text and context, provided every entry already
in history is record-shaped (has an object `structural` with numeric
`integrity`, an object `constraints` with an array `violations` of
non-`null` elements, and an object `classification`); every record built by
`analyze` itself is record-shaped, so an engine that never imports a
malformed record can never fail.  A malformed imported history entry,
however, makes the next `analyze` throw (see the counterexample). -/
theorem analyze_total_on_wellformed_history (input : String)
    (ctx : StatementContext) (tMs : ℚ) (ts : String) (rand : ℕ → ℝ)
    (history : List Entry) (hwf : ∀ e ∈ history, wfEntry e = true) :
    ∃ r h', analyzeStep input ctx tMs ts rand history = (some r, h') := by
  simp only [analyzeStep]
  have hwfgrown : ∀ (r0 : AnalysisRecord),
      ∀ e ∈ history ++ [Entry.record r0], wfEntry e = true := by
    intro r0 e he
    rcases List.mem_append.mp he with h1 | h2
    · exact hwf e h1
    · simp only [List.mem_singleton] at h2
      subst h2
      rfl
  obtain ⟨d, hdeq⟩ := Option.isSome_iff_exists.mp
    (driftCalc_isSome 5 (by norm_num)
      (fun e he => wfEntry_integ
        (hwfgrown (analyzeCore input ctx tMs ts rand) e he)))
  obtain ⟨p, hpeq⟩ := Option.isSome_iff_exists.mp
    (recognize_isSome (hwfgrown
      (withDrift (analyzeCore input ctx tMs ts rand) d)))
  split
  · next heq => simp [heq] at hdeq
  · next d2 heq =>
      have hd2 : d2 = d := by
        rw [heq] at hdeq
        exact Option.some.inj hdeq
      subst hd2
      split
      · next heq2 => simp [heq2] at hpeq
      · next p2 heq2 => exact ⟨_, _, rfl⟩

/-- A record-shaped imported entry used below. -/
def wfSampleEntry : Entry :=
  Entry.imported (Json.obj
    [("structural", Json.obj [("integrity", Json.num 50)]),
     ("constraints", Json.obj [("violations", Json.arr [])]),
     ("classification", Json.obj [])])

/-- A concrete intended-engine `analyze` call over a history holding one
record-shaped imported entry returns a record. -/
theorem analyze_total_witness :
    ∃ r h', analyzeStep "x" emptyContext 0 "t" (fun _ => 1 / 2)
      [wfSampleEntry] = (some r, h') :=
  analyze_total_on_wellformed_history "x" emptyContext 0 "t" (fun _ => 1 / 2)
    [wfSampleEntry]
    (by
      intro e he
      simp only [List.mem_singleton] at he
      subst he
      rfl)

/-- Even the intended engine is not total over imported histories: after
`importAnalysis` has appended the JSON value
`42` to history, the next `analyze` call throws (the drift tracker
evaluates `(42).structural.integrity`), so `analyze` is not total over
histories reachable with `importRecord`. -/
theorem analyze_throws_after_malformed_import :
    (analyzeStep "" emptyContext 0 "t" (fun _ => 1 / 2)
      [Entry.imported (Json.num 42)]).1 = none := rfl

/-! ### Id uniqueness across engine operations -/

/-- The `a.id` value of a history entry (an imported entry without an `id`
member reads as `undefined`, modelled `none`). -/
def idOfEntry : Entry → Option Json
  | .record r => some (.num r.id)
  | .imported j =>
    match getMember j "id" with
    | some v => v
    | none => none

/-- One operation against a live engine: an `analyze` call (with its
observed clock and randomness) or an `importAnalysis` call. -/
inductive EngineOp where
  | analyzeOp (input : String) (ctx : StatementContext) (tMs : ℚ)
      (ts : String) (rand : ℕ → ℝ)
  | importOp (s : String)

/-- The effect of one operation on the engine's history. -/
noncomputable def stepOp (history : List Entry) : EngineOp → List Entry
  | .analyzeOp input ctx tMs ts rand =>
    (analyzeStep input ctx tMs ts rand history).2
  | .importOp s => (importAnalysis history s).2

/-- A sequence of operations against one engine. -/
noncomputable def runOps (ops : List EngineOp) (history : List Entry) :
    List Entry :=
  ops.foldl stepOp history

/-- Arguments of one `analyze` call. -/
structure AnalyzeArgs where
  input : String
  ctx : StatementContext
  tMs : ℚ
  ts : String
  rand : ℕ → ℝ

/-- A sequence of `analyze` calls (no imports) against one engine. -/
noncomputable def runAnalyzes (ops : List AnalyzeArgs) (history : List Entry) :
    List Entry :=
  ops.foldl (fun h a => (analyzeStep a.input a.ctx a.tMs a.ts a.rand h).2)
    history

/-- The id values of the whole history. -/
def historyIds (h : List Entry) : List (Option Json) :=
  h.map idOfEntry

/-- Every `analyze` call appends exactly one record, whose id is the
observed clock value — whether or not the drift/pattern scans threw. -/
theorem analyzeStep_snd (input : String) (ctx : StatementContext) (tMs : ℚ)
    (ts : String) (rand : ℕ → ℝ) (history : List Entry) :
    ∃ r : AnalysisRecord, (analyzeStep input ctx tMs ts rand history).2
      = history ++ [Entry.record r] ∧ r.id = tMs := by
  simp only [analyzeStep]
  split
  · exact ⟨_, rfl, rfl⟩
  · split
    · exact ⟨_, rfl, rfl⟩
    · exact ⟨_, rfl, rfl⟩

theorem runAnalyzes_ids (ops : List AnalyzeArgs) (history : List Entry) :
    historyIds (runAnalyzes ops history)
      = historyIds history ++ ops.map (fun a => some (Json.num a.tMs)) := by
  induction ops generalizing history with
  | nil => simp [runAnalyzes, historyIds]
  | cons a ops ih =>
    obtain ⟨r, hsnd, hid⟩ :=
      analyzeStep_snd a.input a.ctx a.tMs a.ts a.rand history
    simp only [runAnalyzes, List.foldl_cons] at ih ⊢
    rw [hsnd, ih]
    simp [historyIds, idOfEntry, hid, List.append_assoc]

/-- On the intended engine, after any sequence of `analyze` calls whose
observed clock values are pairwise distinct (and with no imports), every
record's id is unique within the engine's history.  Two `analyze` calls in
the same clock millisecond would collide. -/
theorem analyze_ids_unique (ops : List AnalyzeArgs)
    (hdist : ops.Pairwise (fun a b => a.tMs ≠ b.tMs)) :
    ((runAnalyzes ops []).map idOfEntry).Pairwise (fun x y => x ≠ y) := by
  have h := runAnalyzes_ids ops []
  rw [show historyIds ([] : List Entry) = [] from rfl, List.nil_append] at h
  rw [show (runAnalyzes ops []).map idOfEntry
    = historyIds (runAnalyzes ops []) from rfl, h]
  rw [List.pairwise_map]
  exact hdist.imp (fun hne heq => hne (by simpa using heq))

/-- Two intended-engine `analyze` calls at distinct clock values yield
distinct ids. -/
theorem analyze_ids_unique_witness :
    ((runAnalyzes [⟨"", emptyContext, 0, "t0", fun _ => 1 / 2⟩,
        ⟨"", emptyContext, 1, "t1", fun _ => 1 / 2⟩] []).map idOfEntry).Pairwise
      (fun x y => x ≠ y) :=
  analyze_ids_unique _ (by
    simp only [List.pairwise_cons, List.mem_singleton, List.not_mem_nil,
      false_implies, implies_true, List.Pairwise.nil, and_true]
    intro b hb
    subst hb
    norm_num)

/-- On the intended engine, two `analyze` calls that observe the same
`Date.now()` value produce two records with the same id, so ids are not
unique after an arbitrary operation sequence. -/
theorem ids_collide_counterexample :
    ¬ ((runOps [EngineOp.analyzeOp "" emptyContext 0 "t" (fun _ => 1 / 2),
         EngineOp.analyzeOp "" emptyContext 0 "t" (fun _ => 1 / 2)] []).map
        idOfEntry).Pairwise (fun x y => x ≠ y) := by
  intro h
  have hl : (runOps [EngineOp.analyzeOp "" emptyContext 0 "t" (fun _ => 1 / 2),
      EngineOp.analyzeOp "" emptyContext 0 "t" (fun _ => 1 / 2)] []).map
        idOfEntry = [some (Json.num 0), some (Json.num 0)] := rfl
  rw [hl] at h
  exact (List.pairwise_cons.mp h).1 _ (by simp) rfl

/-! ### C8: export/import round trip -/

/-- Model of `HumanMeterV5.exportAnalysis` (Home.tsx lines 347–351): find
the first record whose id equals the requested one; `none` when absent.
`JSON.stringify` of the found record is modelled by the record value
itself (stringify/parse of a record's plain data round-trips), so the
"serialized string" is represented by the entry it denotes. -/
noncomputable def exportAnalysis (history : List Entry) (idArg : Option Json) :
    Option Entry :=
  history.find? (fun e => optJsonBeq (idOfEntry e) idArg)

/-- Model of `importAnalysis` applied to an exported record: the value is
appended to history verbatim and returned.  (The absent case is outside
the round-trip claim, which requires the record to be found.) -/
noncomputable def importValue (history : List Entry) (v : Option Entry) :
    Option Entry × List Entry :=
  match v with
  | some e => (some e, history ++ [e])
  | none => (none, history)

/-- C8 (amended): for every record `r` that is the *first* record in
history bearing its id — in particular, for every record whenever ids are
unique in history — `importRecord(exportRecord(r.id))` succeeds and appends
a record deep-equal to `r`, with its original id, timestamp and computed
fields preserved rather than recomputed.  A later record sharing an
earlier record's id round-trips to the earlier record instead (see the
counterexample). -/
theorem export_import_roundtrip (history : List Entry) (rid : Option Json)
    (r : Entry)
    (hfind : history.find? (fun e => optJsonBeq (idOfEntry e) rid) = some r) :
    importValue history (exportAnalysis history rid) = (some r, history ++ [r]) := by
  unfold importValue exportAnalysis
  rw [hfind]

/-- A history entry used by the C8 witness. -/
def rtEntry : Entry := Entry.imported (Json.obj [("id", Json.num 1)])

/-- C8 witness: a concrete round trip through export and import. -/
theorem export_import_roundtrip_witness :
    importValue [rtEntry] (exportAnalysis [rtEntry] (some (Json.num 1)))
      = (some rtEntry, [rtEntry] ++ [rtEntry]) :=
  export_import_roundtrip [rtEntry] (some (Json.num 1)) rtEntry rfl

/-- First of two records sharing id 1 (the C8 counterexample). -/
def dupEntry1 : Entry :=
  Entry.imported (Json.obj [("id", Json.num 1), ("x", Json.num 2)])

/-- Second of two records sharing id 1 (the C8 counterexample). -/
def dupEntry2 : Entry :=
  Entry.imported (Json.obj [("id", Json.num 1), ("x", Json.num 3)])

/-- C8 counterexample: `dupEntry2` is present in history and carries id 1,
but the round trip through its id yields `dupEntry1` — `exportAnalysis`
returns the first record with the id — which is not deep-equal to
`dupEntry2`; so the claim fails for records whose id is shared. -/
theorem roundtrip_duplicate_id_counterexample :
    idOfEntry dupEntry2 = some (Json.num 1) ∧
    dupEntry2 ∈ [dupEntry1, dupEntry2] ∧
    (importValue [dupEntry1, dupEntry2]
      (exportAnalysis [dupEntry1, dupEntry2] (some (Json.num 1)))).1
      = some dupEntry1 ∧
    dupEntry1 ≠ dupEntry2 := by
  refine ⟨rfl, by simp, rfl, ?_⟩
  intro h
  simp only [dupEntry1, dupEntry2, Entry.imported.injEq, Json.obj.injEq,
    List.cons.injEq, Prod.mk.injEq, Json.num.injEq] at h
  have := h.2.1.2
  norm_num at this

/-! ## The `analyze` call as actually written

`HumanMeterV5.analyze` invokes `this.simulator.simulate(structural)`,
passing the bare `{integrity, status}` object, while
`ConsequenceSimulator.simulate(analysis, iterations = 100)` reads
`analysis.structural.integrity` inside its trial loop.  The `structural`
member of that object is `undefined`, so the very first trial throws a
`TypeError` — during evaluation of the record literal, before the record
is pushed to history.  The definitions below model the call as written;
`analyzeStep` above models the intended consumption (spec section 4.7). -/

/-- `ConsequenceSimulator.simulate` as invoked by `analyze`: the receiver
is the `structural` object, so `analysis.structural` is `undefined` and the
first loop iteration throws (`none`).  With zero iterations the loop body
never runs and the empty tally is returned. -/
noncomputable def simulateAsCalled (_structural : StructuralScore)
    (_rand : ℕ → ℝ) (iterations : ℕ) : Option (List Outcome) :=
  if iterations = 0 then some [] else none

/-- Model of one `HumanMeterV5.analyze` call exactly as the source is
written: the record-literal properties evaluate in order, `consequences`
last; when that evaluation throws, the exception propagates before
`history.push` runs, so no record is returned and history is unchanged. -/
noncomputable def analyzeStepActual (input : String) (ctx : StatementContext)
    (tMs : ℚ) (ts : String) (rand : ℕ → ℝ) (history : List Entry) :
    Option AnalysisRecord × List Entry :=
  match simulateAsCalled (structuralOf input ctx) rand 100 with
  | none => (none, history)
  | some cons =>
    let r0 := analyzeCoreWith input ctx tMs ts cons
    match driftCalc (history ++ [Entry.record r0]) 5 with
    | none => (none, history ++ [Entry.record r0])
    | some d =>
      let r1 := withDrift r0 d
      match recognize (history ++ [Entry.record r1]) with
      | none => (none, history ++ [Entry.record r1])
      | some p =>
        let r2 := withPatterns r1 p
        (some r2, history ++ [Entry.record r2])

/-- Every `analyze` call, as written, throws before pushing: no record is
returned and the history is unchanged.  (Shared helper behind the claim
theorems below.) -/
theorem analyzeStepActual_eq (input : String) (ctx : StatementContext)
    (tMs : ℚ) (ts : String) (rand : ℕ → ℝ) (history : List Entry) :
    analyzeStepActual input ctx tMs ts rand history = (none, history) := rfl

/-- C6: the claim says `analyze` is total and never raises; in the code as
written every `analyze` call throws a `TypeError` (the simulator is handed
the bare `structural` object and dereferences
`analysis.structural.integrity`), before the record is pushed — so no
`AnalysisRecord` is ever produced, for any text, context, clock or
history. -/
theorem analyze_always_throws (input : String) (ctx : StatementContext)
    (tMs : ℚ) (ts : String) (rand : ℕ → ℝ) (history : List Entry) :
    analyzeStepActual input ctx tMs ts rand history = (none, history) :=
  analyzeStepActual_eq input ctx tMs ts rand history

/-- C3: the claim describes the integrity and status of the record
`analyze` returns; as written, a concrete `analyze("", {})` call on a
fresh engine returns no record at all (the simulate call throws), so there
is no returned record to satisfy the claim.  (Under the intended simulate
consumption the property does hold — see
`integrity_in_range_status_consistent` above.) -/
theorem analyzeActual_no_record_empty_call :
    analyzeStepActual "" emptyContext 0 "t" (fun _ => 1 / 2) [] = (none, []) :=
  rfl

/-- C4: the claim compares the outputs of two `analyze` calls with equal
`(text, context)`; as written, both calls throw and produce no output at
all, so there are no record fields to compare.  (Under the intended
simulate consumption the outputs agree on every field except
`consequenceOutcomes`, `id` and `timestamp` — see
`analyze_deterministic_mod_consequences` above.) -/
theorem analyzeActual_two_calls_no_output :
    (analyzeStepActual "hello" emptyContext 0 "t0" (fun _ => 1 / 2) []).1 = none
    ∧ (analyzeStepActual "hello" emptyContext 1 "t1" (fun _ => 2 / 3) []).1
      = none :=
  ⟨rfl, rfl⟩

/-! ### C7 against the code as written -/

/-- The effect of one operation on the engine's history, with `analyze` as
written (it throws before pushing, leaving history unchanged). -/
noncomputable def stepOpActual (history : List Entry) : EngineOp → List Entry
  | .analyzeOp input ctx tMs ts rand =>
    (analyzeStepActual input ctx tMs ts rand history).2
  | .importOp s => (importAnalysis history s).2

/-- A sequence of operations against one engine, with `analyze` as
written. -/
noncomputable def runOpsActual (ops : List EngineOp) (history : List Entry) :
    List Entry :=
  ops.foldl stepOpActual history

/-- The id values of the records an operation sequence imports (in order);
`analyze` contributes nothing, since it throws before pushing. -/
def importedIds : List EngineOp → List (Option Json)
  | [] => []
  | .analyzeOp _ _ _ _ _ :: ops => importedIds ops
  | .importOp s :: ops =>
    match jsonParse s with
    | some j => idOfEntry (Entry.imported j) :: importedIds ops
    | none => importedIds ops

theorem runOpsActual_ids (ops : List EngineOp) (history : List Entry) :
    historyIds (runOpsActual ops history)
      = historyIds history ++ importedIds ops := by
  induction ops generalizing history with
  | nil => simp [runOpsActual, importedIds, historyIds]
  | cons op ops ih =>
    simp only [runOpsActual, List.foldl_cons] at ih ⊢
    cases op with
    | analyzeOp input ctx tMs ts rand =>
      rw [show stepOpActual history (EngineOp.analyzeOp input ctx tMs ts rand)
          = (analyzeStepActual input ctx tMs ts rand history).2 from rfl,
        analyzeStepActual_eq, ih]
      rfl
    | importOp s =>
      rw [show stepOpActual history (EngineOp.importOp s)
          = (importAnalysis history s).2 from rfl]
      unfold importAnalysis
      rcases hp : jsonParse s with _ | j
      · rw [ih]
        simp [importedIds, hp]
      · rw [ih]
        simp [importedIds, hp, historyIds, List.append_assoc]

/-- C7 (amended): after any sequence of `analyze` and `importRecord` calls
on one engine, the history's record ids are exactly the imported records'
ids in order — `analyze`, as written, throws before pushing and appends
nothing — and they are unique whenever the successfully imported records
carry pairwise distinct id values.  Importing two records with the same id
breaks uniqueness (see the counterexample). -/
theorem ops_ids_unique_actual (ops : List EngineOp)
    (hdist : (importedIds ops).Pairwise (fun x y => x ≠ y)) :
    (historyIds (runOpsActual ops [])).Pairwise (fun x y => x ≠ y) := by
  rw [runOpsActual_ids]
  simpa using hdist

/-- C7 witness: an `analyze` call followed by two imports with distinct
ids yields a history with unique ids. -/
theorem ops_ids_unique_actual_witness :
    (historyIds (runOpsActual
      [EngineOp.analyzeOp "" emptyContext 0 "t" (fun _ => 1 / 2),
       EngineOp.importOp "\x7b\"id\":1\x7d",
       EngineOp.importOp "\x7b\"id\":2\x7d"] [])).Pairwise
      (fun x y => x ≠ y) :=
  ops_ids_unique_actual _ (by
    rw [show importedIds
        [EngineOp.analyzeOp "" emptyContext 0 "t" (fun _ => 1 / 2),
         EngineOp.importOp "\x7b\"id\":1\x7d",
         EngineOp.importOp "\x7b\"id\":2\x7d"]
      = [some (Json.num 1), some (Json.num 2)] from rfl]
    simp only [List.pairwise_cons, List.mem_singleton, List.not_mem_nil,
      false_implies, implies_true, List.Pairwise.nil, and_true]
    intro b hb
    subst hb
    simp only [ne_eq, Option.some.injEq, Json.num.injEq]
    norm_num)

/-- C7 counterexample: importing the same record twice gives two history
entries with the same id, so ids are not unique after an arbitrary
sequence of `analyze`/`importRecord` calls. -/
theorem import_duplicate_ids_counterexample :
    ¬ (historyIds (runOpsActual [EngineOp.importOp "\x7b\"id\":1\x7d",
        EngineOp.importOp "\x7b\"id\":1\x7d"] [])).Pairwise
      (fun x y => x ≠ y) := by
  intro h
  have hl : historyIds (runOpsActual [EngineOp.importOp "\x7b\"id\":1\x7d",
      EngineOp.importOp "\x7b\"id\":1\x7d"] [])
      = [some (Json.num 1), some (Json.num 1)] := rfl
  rw [hl] at h
  exact (List.pairwise_cons.mp h).1 _ (by simp) rfl
